import Mathlib

/-!
Verification development for the UNOcmd-JS rule engine.

The JavaScript sources (`src/logic/cards/Color.js`, `Value.js`, `Card.js`,
`Deck.js`, `src/logic/players/Player.js`, `src/logic/Game.js`) are shallowly
embedded below.  JavaScript object identity is modelled by a numeric tag
(`cid` on cards, `pid` on players): two values with the same tag stand for
the same heap object, and tags are allocated freshly wherever the source
calls a constructor.  In-place mutation of an object is modelled by
replacing every occurrence of its tag in the containing state.  JavaScript
`null` and `undefined` are both modelled as `none` (the engine only ever
distinguishes them through `?.` and truthiness, which treat them alike).
Randomness (`Math.random`) is modelled by an oracle stream of naturals:
each draw takes the head of the stream modulo the required bound.
Exceptions are modelled with `Except String`.
-/

deriving instance DecidableEq for Except

set_option maxRecDepth 200000
set_option maxHeartbeats 1600000

namespace UNO

/-- Oracle stream for `Math.random`: `Math.floor(Math.random() * n)` is
modelled as `head % n`, consuming one element (0 when exhausted). -/
abbrev RNG := List Nat

/-- Consume one random natural from the oracle stream. -/
def RNG.next : RNG → Nat × RNG
  | [] => (0, [])
  | n :: rest => (n, rest)

/-- `src/constants/colors.js` key set (used by `Color.js`). -/
inductive Color where
  | RED | GREEN | BLUE | YELLOW | BLACK
deriving DecidableEq, Repr

/-- `Color.isWild`: `this.color === COLORS.BLACK`. -/
def Color.isWild (c : Color) : Bool := c = Color.BLACK

/-- `src/constants/values.js` key set (used by `Value.js`). -/
inductive Value where
  | ZERO | ONE | TWO | THREE | FOUR | FIVE | SIX | SEVEN | EIGHT | NINE
  | SKIP | REVERSE | DRAW_TWO | WILD | WILD_DRAW_FOUR
deriving DecidableEq, Repr

/-- `Value.isWild`: value is `WILD` or `WILD_DRAW_FOUR`. -/
def Value.isWild (v : Value) : Bool :=
  v = Value.WILD || v = Value.WILD_DRAW_FOUR

/-- `Card.js`: a card.  `cid` is the model's object-identity tag (it has no
counterpart field in the source; it stands for the JavaScript heap address
and is what `===` compares).  `wildPickedColor` is `none` for the source's
`null`/`undefined`. -/
structure Card where
  cid : Nat
  color : Color
  value : Value
  wild : Bool
  wildPickedColor : Option Color
deriving DecidableEq, Repr

/-- The `Card` constructor: derives the `wild` flag
(`wild || (color.isWild() && value.isWild())`) and defaults
`wildPickedColor` to BLACK for wild cards, null otherwise. -/
def Card.make (cid : Nat) (color : Color) (value : Value) (wildFlag : Bool) : Card :=
  let w := wildFlag || (color.isWild && value.isWild)
  { cid := cid, color := color, value := value, wild := w,
    wildPickedColor := if w then some Color.BLACK else none }

/-- `Card.isValidOn(card, toPlay, isStacking)`, translated clause for clause
from `Card.js`.  The discard-top argument is `Option Card` (`none` for a
missing top card). -/
def Card.isValidOn (self : Card) (card : Option Card) (toPlay : Bool) (isStacking : Bool) : Bool :=
  match card with
  | none => false
  | some card =>
    if isStacking then
      if self.value = Value.DRAW_TWO || self.value = Value.WILD_DRAW_FOUR then
        card.value = self.value
      else false
    else if self.wild && card.wild then false
    else if !toPlay && self.wild then true
    else if self.wild then
      -- `this.wildPickedColor?.color !== colors.BLACK`: for `null`/`undefined`
      -- (`none`), the optional chain yields `undefined`, which differs from
      -- the string BLACK, so the comparison is true.
      match self.wildPickedColor with
      | none => true
      | some col => !(col = Color.BLACK)
    else self.color = card.color || self.value = card.value

/-- `Deck.js`: an ordered container of cards, front = top. -/
structure Deck where
  cards : List Card
deriving DecidableEq, Repr

/-- `Deck.getTopCard()` without removal: peek at the front. -/
def Deck.getTopCard? (d : Deck) : Option Card := d.cards.head?

/-- `Deck.getTopCard(true)`: `Array.shift` — returns the front card (or
`undefined` on an empty deck) together with the remaining deck. -/
def Deck.getTopCardRemove (d : Deck) : Option Card × Deck :=
  (d.cards.head?, ⟨d.cards.tail⟩)

/-- The matching disjunction used by `Deck.removeCard`:
`c === card || (c.color.color === card.color.color && c.value.value === card.value.value)`. -/
def removeMatches (card c : Card) : Bool :=
  c.cid = card.cid || (c.color = card.color && c.value = card.value)

/-- `Deck.removeCard(card)`: one `findIndex` pass over the deck with the
identity-or-(color,value) disjunction, splicing out the first hit. -/
def Deck.removeCard (d : Deck) (card : Card) : Bool × Deck :=
  match d.cards.findIdx? (removeMatches card) with
  | none => (false, d)
  | some i => (true, ⟨d.cards.eraseIdx i⟩)

/-- `Deck.addCard(card)`: `Array.unshift` — insert at the front. -/
def Deck.addCard (d : Deck) (card : Card) : Deck := ⟨card :: d.cards⟩

/-- The search predicate of `Deck.getCard(color, value)`:
`colorMatches = isWild || !color || c.color.color === color.color`,
`valueMatches = !value || c.value.value === value.value`. -/
def getCardMatches (isW : Bool) (color : Option Color) (value : Option Value) (c : Card) : Bool :=
  (isW || color.isNone || (color.map fun col => c.color == col).getD false) &&
  ((value.map fun v => c.value == v).getD true)

/-- `Deck.getCard(color, value)`: `null` when no criteria are given;
otherwise a first-match scan; when the found card is wild, its
`wildPickedColor` is overwritten with the `color` argument exactly as
passed (including `undefined`, i.e. `none`).  Returns the (possibly
updated) card and the updated deck. -/
def Deck.getCard (d : Deck) (color : Option Color) (value : Option Value) : Option Card × Deck :=
  match color, value with
  | none, none => (none, d)
  | _, _ =>
    let isW := (value.map Value.isWild).getD false
    match d.cards.findIdx? (getCardMatches isW color value) with
    | none => (none, d)
    | some i =>
      match d.cards.get? i with
      | none => (none, d)
      | some c =>
        if c.wild then
          let c' := { c with wildPickedColor := color }
          (some c', ⟨d.cards.set i c'⟩)
        else (some c, d)

/-- One Fisher–Yates step sequence of `Deck.shuffle`: swap positions `i` and
`j` of the card list (identity when out of bounds, which the source never
hits). -/
def listSwap (l : List Card) (i j : Nat) : List Card :=
  match l.get? i, l.get? j with
  | some a, some b => (l.set i b).set j a
  | _, _ => l

/-- The loop of `Deck.shuffle`: `for (i = n-1; i > 0; i--) { j = rand(i+1); swap i j }`. -/
def shuffleGo (cards : List Card) (i : Nat) (rng : RNG) : List Card × RNG :=
  match i with
  | 0 => (cards, rng)
  | Nat.succ k =>
    let (r, rng') := RNG.next rng
    let j := r % (Nat.succ k + 1)
    shuffleGo (listSwap cards (Nat.succ k) j) k rng'

/-- `Deck.shuffle()`: in-place Fisher–Yates driven by the random oracle. -/
def Deck.shuffle (d : Deck) (rng : RNG) : Deck × RNG :=
  let (cs, rng') := shuffleGo d.cards (d.cards.length - 1) rng
  (⟨cs⟩, rng')

/-- Modelled from the spec: `src/constants/cardCounts.js` is not under
`src/`; §4.3 of the spec describes `insertDefaultCards` as populating from
"a fixed color×value×count table (standard 108-card distribution)".  The
standard UNO distribution per colored suit is one ZERO, two of each of
ONE..NINE, SKIP, REVERSE and DRAW_TWO, plus four WILD and four
WILD_DRAW_FOUR in BLACK — 108 cards in total. -/
def suitCounts : List (Value × Nat) :=
  [(Value.ZERO, 1), (Value.ONE, 2), (Value.TWO, 2), (Value.THREE, 2),
   (Value.FOUR, 2), (Value.FIVE, 2), (Value.SIX, 2), (Value.SEVEN, 2),
   (Value.EIGHT, 2), (Value.NINE, 2), (Value.SKIP, 2), (Value.REVERSE, 2),
   (Value.DRAW_TWO, 2)]

/-- Modelled from the spec: the full color×value×count table of
`src/constants/cardCounts.js` (see `suitCounts`). -/
def cardCounts : List (Color × List (Value × Nat)) :=
  [(Color.RED, suitCounts), (Color.GREEN, suitCounts),
   (Color.BLUE, suitCounts), (Color.YELLOW, suitCounts),
   (Color.BLACK, [(Value.WILD, 4), (Value.WILD_DRAW_FOUR, 4)])]

/-- The (color, value) sequence enumerated by `insertDefaultCards`'s nested
loops over `cardCounts`. -/
def defaultSpecs : List (Color × Value) :=
  cardCounts.flatMap fun cv =>
    cv.2.flatMap fun vn => List.replicate vn.2 (cv.1, vn.1)

/-- `Deck.insertDefaultCards()`: clears the deck, adds
`new Card(color, value, color === colors.BLACK)` for every table entry via
`addCard` (unshift, hence the reverse), then shuffles.  `base` is the
model's fresh-identity counter for the 108 new card objects. -/
def Deck.insertDefaultCards (base : Nat) (rng : RNG) : Deck × RNG :=
  let cards := defaultSpecs.enum.map fun ic =>
    Card.make (base + ic.1) ic.2.1 ic.2.2 (ic.2.1 = Color.BLACK)
  Deck.shuffle ⟨cards.reverse⟩ rng

/-- `Player.js`: identity (`name`, numeric `id`, default `-1`) plus a hand.
`pid` is the model's object-identity tag (the JavaScript heap address). -/
structure Player where
  pid : Nat
  name : String
  id : Int
  hand : Deck
deriving DecidableEq, Repr

/-- `Player.getPlayableCards(card, toPlay, isStacking)`: filter the hand by
`Card.isValidOn`. -/
def Player.getPlayableCards (p : Player) (card : Option Card) (toPlay isStacking : Bool) : List Card :=
  p.hand.cards.filter fun c => c.isValidOn card toPlay isStacking

/-- Modelled from the spec: `src/Config.js` is not under `src/`.  §3 of the
spec lists the recognized options `defaultRotation`, `playersPerDeck`,
`initialCards`, `stackCards` (plus override hooks for the Deck/Player
classes and the gameLogic function, which this model omits: only the
built-in classes and the built-in special-card dispatch are modelled). -/
structure Config where
  defaultRotation : String
  playersPerDeck : Nat
  initialCards : Nat
  stackCards : Bool
deriving DecidableEq, Repr

/-- `Card.toJSON()`: color, value, wild flag, chosen color (null-safe). -/
structure CardJSON where
  color : Color
  value : Value
  wild : Bool
  wildPickedColor : Option Color
deriving DecidableEq, Repr

/-- `Player.toJSON()` payload: id, name, hand contents. -/
structure PlayerJSON where
  id : Int
  name : String
  hand : List CardJSON
deriving DecidableEq, Repr

/-- An entry of the `players` array passed to the `Game` constructor: a bare
name string, a live `Player` object, or (after `toJSON`) a plain serialized
player payload, which the constructor rejects as neither a string nor a
`Player` instance. -/
inductive InitEntry where
  | str (s : String)
  | obj (p : Player)
  | pjson (pj : PlayerJSON)
deriving DecidableEq, Repr

/-- `Game.js`: the aggregate root, exactly the fields assigned by the
constructor (the event manager carries no engine state and is omitted;
`rotation` and `state` are strings in the source and `fromJSON` assigns
them unchecked, so they are `String` here). -/
structure Game where
  config : Config
  initPlayers : List InitEntry
  rotation : String
  currentPlayer : Option Player
  state : String
  stackDrawAmount : Nat
  discardedCards : Deck
  decks : List Deck
  players : List Player
deriving DecidableEq, Repr

/-- The `Game` constructor: validates that every entry is a string or a
`Player` instance, then initializes the state machine in NOT_STARTED. -/
def mkGame (entries : List InitEntry) (config : Config) : Except String Game :=
  if entries.any (fun e => match e with | InitEntry.str _ => false | InitEntry.obj _ => false | _ => true) then
    Except.error "Players must be an array of strings or Player instances"
  else
    Except.ok { config := config, initPlayers := entries,
                rotation := config.defaultRotation, currentPlayer := none,
                state := "NOT_STARTED", stackDrawAmount := 0,
                discardedCards := ⟨[]⟩, decks := [], players := [] }

/-- `Game.#getRandomFromArr(arr)`: `null` on an empty array (before touching
the random source), otherwise a uniformly random element. -/
def getRandomFromArr (arr : List Player) (rng : RNG) : Option Player × RNG :=
  if arr.isEmpty then (none, rng)
  else
    let r := (RNG.next rng).1
    (arr.get? (r % arr.length), (RNG.next rng).2)

/-- `Game.#getRandomFromArr` at card type (JavaScript is untyped; the model
needs one instance per element type). -/
def getRandomCard (arr : List Card) (rng : RNG) : Option Card × RNG :=
  if arr.isEmpty then (none, rng)
  else
    let r := (RNG.next rng).1
    (arr.get? (r % arr.length), (RNG.next rng).2)

/-- Writes a mutated player object back through every alias of it: the
`players` array and the `currentPlayer` reference (same `pid` = same
JavaScript object). -/
def syncPlayer (g : Game) (p : Player) : Game :=
  { g with
    players := g.players.map fun q => if q.pid = p.pid then p else q,
    currentPlayer := g.currentPlayer.map fun cp => if cp.pid = p.pid then p else cp }

/-- Look a player object up by identity in the players array. -/
def lookupPid (g : Game) (pid : Nat) : Option Player :=
  g.players.find? fun q => q.pid = pid

/-- `player !== this.currentPlayer` (negated): identity comparison with the
current player; false when `currentPlayer` is null. -/
def isCurrent (g : Game) (p : Player) : Bool :=
  match g.currentPlayer with
  | some cp => cp.pid = p.pid
  | none => false

/-- `Game.#getDeck()`: index of the first draw deck with cards left; if all
are empty, reshuffle the discard pile except its top card into a single new
deck that replaces the whole deck list. -/
def getDeckR (g : Game) (rng : RNG) : Game × Nat × RNG :=
  match g.decks.findIdx? (fun d => !d.cards.isEmpty) with
  | some i => (g, i, rng)
  | none =>
    let (topCard, rest) := g.discardedCards.getTopCardRemove
    let newDiscard : Deck := match topCard with
      | some t => Deck.addCard ⟨[]⟩ t
      | none => ⟨[]⟩
    let (shuffled, rng') := Deck.shuffle ⟨rest.cards⟩ rng
    ({ g with discardedCards := newDiscard, decks := [shuffled] }, 0, rng')

/-- The card-by-card loop of `Game.draw`: draw from the deck the local
`deck` alias points at; when it runs dry, re-fetch via `#getDeck` and stop
short only if that deck is empty too (`i--` otherwise retries the same
iteration on the fresh deck). -/
def drawLoop (g : Game) (deckIdx : Nat) (p : Player) (remaining : Nat)
    (acc : List Card) (rng : RNG) : List Card × Player × Game × RNG :=
  match remaining with
  | 0 => (acc.reverse, p, g, rng)
  | Nat.succ r =>
    match (g.decks.getD deckIdx ⟨[]⟩).cards with
    | c :: rest =>
      let g := { g with decks := g.decks.set deckIdx ⟨rest⟩ }
      let p := { p with hand := p.hand.addCard c }
      drawLoop g deckIdx p r (c :: acc) rng
    | [] =>
      let (g', idx', rng') := getDeckR g rng
      match (g'.decks.getD idx' ⟨[]⟩).cards with
      | [] => (acc.reverse, p, g', rng')
      | c :: rest =>
        let g'' := { g' with decks := g'.decks.set idx' ⟨rest⟩ }
        let p := { p with hand := p.hand.addCard c }
        drawLoop g'' idx' p r (c :: acc) rng'

/-- `Game.getNextPlayer(rotation, currentPlayer)`: throws on an invalid
rotation token; a null current player yields a uniformly random player;
otherwise `indexOf` (identity) ±1 modulo the player count, with JavaScript
array/`%` semantics preserved (an out-of-range or NaN index reads as
`undefined`, i.e. `none`). -/
def getNextPlayerR (g : Game) (rotation : String) (currentPlayer : Option Player)
    (rng : RNG) : Except String (Option Player × RNG) :=
  if !(rotation == "CW" || rotation == "CCW") then
    Except.error "Invalid rotation. It must be 'CW' or 'CCW'."
  else
    match currentPlayer with
    | none => Except.ok (getRandomFromArr g.players rng)
    | some cp =>
      let idx : Int := match g.players.findIdx? (fun q => q.pid = cp.pid) with
        | some i => Int.ofNat i
        | none => -1
      let len : Int := Int.ofNat g.players.length
      let k : Int := if rotation == "CW" then (idx + 1).tmod len
                     else (idx - 1 + len).tmod len
      Except.ok ((if len == 0 || k < 0 then none else g.players.get? k.toNat), rng)

/-- `Game.setNextPlayer(silent)`: commit `currentPlayer = getNextPlayer()`
(the player-change event has no engine-state effect). -/
def setNextPlayerR (g : Game) (rng : RNG) : Except String (Game × RNG) :=
  match getNextPlayerR g g.rotation g.currentPlayer rng with
  | Except.error e => Except.error e
  | Except.ok (np, rng') => Except.ok ({ g with currentPlayer := np }, rng')

/-- `Game.flipDirection()`. -/
def flipDirection (g : Game) : Game :=
  { g with rotation := if g.rotation == "CW" then "CCW" else "CW" }

/-- `Game.draw(player, cards, isNext, silent, nextSilent, force)`.  A
non-positive count throws; a non-current player (unless forced) is a false
return; a STACK_DRAW state overrides the count with the accumulated amount
and resolves back to PLAYING; then the draw loop runs and the turn advances
when requested.  The two silent flags only suppress events, which carry no
engine state.  (The dynamic-type throws for a non-`Player` player or a
non-number count are ruled out by the embedding's types.) -/
def drawR (g : Game) (player : Player) (cards : Int)
    (isNext silent nextSilent force : Bool) (rng : RNG) :
    Except String (Bool × Player × Game × RNG) :=
  if cards < 1 then Except.error "Cards must be a positive integer"
  else if !force && !(isCurrent g player) then Except.ok (false, player, g, rng)
  else
    let gd := getDeckR g rng
    let g1 := gd.1
    let deckIdx := gd.2.1
    let rng1 := gd.2.2
    let cg :=
      if g1.state == "STACK_DRAW" then
        (g1.stackDrawAmount, { g1 with stackDrawAmount := 0, state := "PLAYING" })
      else (cards.toNat, g1)
    let out := drawLoop cg.2 deckIdx player cg.1 [] rng1
    let g3 := syncPlayer out.2.2.1 out.2.1
    -- the draw event carries no engine state (silent only suppresses it)
    if isNext then
      match setNextPlayerR g3 out.2.2.2 with
      | Except.error e => Except.error e
      | Except.ok gr => Except.ok (out.1.length == cg.1, out.2.1, gr.1, gr.2)
    else Except.ok (out.1.length == cg.1, out.2.1, g3, out.2.2.2)

/-- The lookup that guards both stacking branches of `Game.#gameLogic`:
`this.getNextPlayer().hand` — throws a TypeError when `getNextPlayer`
produced no player object. -/
def nextPlayerOf (g : Game) (rng : RNG) : Except String (Player × RNG) :=
  match getNextPlayerR g g.rotation g.currentPlayer rng with
  | Except.error e => Except.error e
  | Except.ok (none, _) => Except.error "TypeError: Cannot read properties of undefined"
  | Except.ok (some np, rng') => Except.ok (np, rng')

/-- The `else` arm shared by the DRAW_TWO and WILD_DRAW_FOUR cases of
`Game.#gameLogic`: if already in STACK_DRAW, force the accumulated amount
(existing + this card's amount) onto the next player and clear the stack
state; otherwise the next player simply draws the card's amount. -/
def stackElseBranch (g : Game) (amount : Nat) (rng : RNG) : Except String (Game × RNG) :=
  if g.state == "STACK_DRAW" then
    let g := { g with stackDrawAmount := g.stackDrawAmount + amount }
    match nextPlayerOf g rng with
    | Except.error e => Except.error e
    | Except.ok (np, rng) =>
      match drawR g np (Int.ofNat g.stackDrawAmount) true false true true rng with
      | Except.error e => Except.error e
      | Except.ok (_, _, g, rng) =>
        Except.ok ({ g with stackDrawAmount := 0, state := "PLAYING" }, rng)
  else
    match nextPlayerOf g rng with
    | Except.error e => Except.error e
    | Except.ok (np, rng) =>
      match drawR g np (Int.ofNat amount) true false true true rng with
      | Except.error e => Except.error e
      | Except.ok (_, _, g, rng) => Except.ok (g, rng)

/-- The DRAW_TWO / WILD_DRAW_FOUR case of `Game.#gameLogic` (`amount` is 2
resp. 4, `stackValue` the card value looked for in the next player's
hand; the two source cases are textually identical up to those two
constants).  Note the `&&` short-circuit: when `stackCards` is off, the
`getNextPlayer().hand.getCard(undefined, value)` lookup — and its
`wildPickedColor` side effect — does not happen. -/
def drawCardCase (g : Game) (amount : Nat) (stackValue : Value) (rng : RNG) :
    Except String (Game × RNG) :=
  if g.config.stackCards then
    match nextPlayerOf g rng with
    | Except.error e => Except.error e
    | Except.ok (np, rng) =>
      let fh := np.hand.getCard none (some stackValue)
      let found := fh.1
      let np := { np with hand := fh.2 }
      let g := syncPlayer g np
      if found.isSome then
        Except.ok ({ g with stackDrawAmount := g.stackDrawAmount + amount,
                            state := "STACK_DRAW" }, rng)
      else stackElseBranch g amount rng
  else stackElseBranch g amount rng

/-- `Game.#gameLogic(player, card)`: the built-in special-card dispatch
(the unused `player` argument of the source is dropped). -/
def gameLogicR (g : Game) (card : Card) (rng : RNG) : Except String (Game × RNG) :=
  match card.value with
  | Value.REVERSE =>
    let g := flipDirection g
    if g.players.length = 2 then setNextPlayerR g rng else Except.ok (g, rng)
  | Value.SKIP => setNextPlayerR g rng
  | Value.DRAW_TWO => drawCardCase g 2 Value.DRAW_TWO rng
  | Value.WILD_DRAW_FOUR => drawCardCase g 4 Value.WILD_DRAW_FOUR rng
  | _ => Except.ok (g, rng)

/-- `player.hand.cards.includes(card)`: identity membership. -/
def handIncludes (p : Player) (card : Card) : Bool :=
  p.hand.cards.any fun c => c.cid = card.cid

/-- `Game.play(player, card)`: validates hand membership (identity), turn
ownership and `isValidOn` against the discard top (stacking context only
when configured and currently stacking); on success commits a wild's picked
color onto the card, runs the special-card dispatch, moves the card from
hand to discard top, computes the play event's next player, and advances
the turn.  (The source line `card.color = card.wildPickedColor` stores
`undefined` when the picked color was `undefined`; `color` is total here,
so that never-exercised corner keeps the previous color instead.) -/
def playR (g : Game) (player : Player) (card : Card) (rng : RNG) :
    Except String (Bool × Game × RNG) :=
  let topDiscard := g.discardedCards.getTopCard?
  if handIncludes player card && isCurrent g player &&
      card.isValidOn topDiscard true (g.config.stackCards && g.state == "STACK_DRAW") then
    let card := if card.wild then { card with color := card.wildPickedColor.getD card.color }
                else card
    let player := { player with
      hand := ⟨player.hand.cards.map fun c => if c.cid = card.cid then card else c⟩ }
    let g := syncPlayer g player
    match gameLogicR g card rng with
    | Except.error e => Except.error e
    | Except.ok (g, rng) =>
      let player := (lookupPid g player.pid).getD player
      let player := { player with hand := (player.hand.removeCard card).2 }
      let g := syncPlayer g player
      let g := { g with discardedCards := g.discardedCards.addCard card }
      match getNextPlayerR g g.rotation g.currentPlayer rng with
      | Except.error e => Except.error e
      | Except.ok (_, rng) =>
        match setNextPlayerR g rng with
        | Except.error e => Except.error e
        | Except.ok (g, rng) => Except.ok (true, g, rng)
  else Except.ok (false, g, rng)

/-- The deck-building loop of `Game.start`: push `decksNeeded` freshly
populated, shuffled decks. -/
def buildDecks (g : Game) (n : Nat) (fresh : Nat) (rng : RNG) : Game × Nat × RNG :=
  match n with
  | 0 => (g, fresh, rng)
  | Nat.succ m =>
    let dr := Deck.insertDefaultCards fresh rng
    buildDecks { g with decks := g.decks ++ [dr.1] } m (fresh + 108) dr.2

/-- The dealing loop of `Game.start`: materialize each initial player (a
bare name becomes `new Player(name, i)` with a fresh object identity and an
empty hand), force-draw `initialCards` to it silently without advancing the
turn, and push it onto the players list.  A serialized-payload entry makes
the inner `draw` throw its player-type error. -/
def dealPlayers (g : Game) (entries : List InitEntry) (i : Nat) (fresh : Nat)
    (rng : RNG) : Except String (Game × Nat × RNG) :=
  match entries with
  | [] => Except.ok (g, fresh, rng)
  | e :: rest =>
    match (match e with
           | InitEntry.str s => Except.ok (Player.mk fresh s (Int.ofNat i) ⟨[]⟩, fresh + 1)
           | InitEntry.obj p => Except.ok (p, fresh)
           | InitEntry.pjson _ => Except.error "Player must be an instance of Player") with
    | Except.error err => Except.error err
    | Except.ok (player, fresh) =>
      match drawR g player (Int.ofNat g.config.initialCards) false true true true rng with
      | Except.error err => Except.error err
      | Except.ok (_, player, g, rng) =>
        dealPlayers { g with players := g.players ++ [player] } rest (i + 1) fresh rng

/-- First phase of `Game.start()`: the two validations, deck building
(`Math.ceil(playerCount / playersPerDeck)` decks), dealing, and the random
pick of the starting player. -/
def startPrep (g : Game) (fresh : Nat) (rng : RNG) : Except String (Game × Nat × RNG) :=
  if g.initPlayers.length < 2 then Except.error "Not enough players"
  else if !(g.state == "NOT_STARTED") then Except.error "Game already started"
  else
    let decksNeeded := (g.initPlayers.length + g.config.playersPerDeck - 1) / g.config.playersPerDeck
    let bd := buildDecks g decksNeeded fresh rng
    match dealPlayers bd.1 bd.1.initPlayers 0 bd.2.1 bd.2.2 with
    | Except.error e => Except.error e
    | Except.ok gfr =>
      let cp := getRandomFromArr gfr.1.players gfr.2.2
      Except.ok ({ gfr.1 with currentPlayer := cp.1 }, gfr.2.1, cp.2)

/-- The opening-discard filter of `Game.start`: not BLACK and none of
DRAW_TWO, REVERSE, SKIP. -/
def validFirstCard (c : Card) : Bool :=
  !(c.color == Color.BLACK) && !(c.value == Value.DRAW_TWO) &&
  !(c.value == Value.REVERSE) && !(c.value == Value.SKIP)

/-- Second phase of `Game.start()`: pick a uniformly random valid card from
the active deck, place it on the discard pile, remove it from its deck, and
transition to PLAYING.  When no valid candidate exists the source picks
`null`: on an emptied deck `removeCard(null)` scans nothing and the discard
pile gains a null entry (not a card — recorded here as no entry); on a
non-empty deck the `removeCard` callback dereferences `null.color` and the
call throws. -/
def startFinish (g : Game) (rng : RNG) : Except String (Game × RNG) :=
  let gd := getDeckR g rng
  let g1 := gd.1
  let deckIdx := gd.2.1
  let validFirstCards := (g1.decks.getD deckIdx ⟨[]⟩).cards.filter validFirstCard
  let pick := getRandomCard validFirstCards gd.2.2
  match pick.1 with
  | some c =>
    let g2 := { g1 with discardedCards := g1.discardedCards.addCard c }
    let g3 := { g2 with decks := g2.decks.set deckIdx ((g2.decks.getD deckIdx ⟨[]⟩).removeCard c).2 }
    Except.ok ({ g3 with state := "PLAYING" }, pick.2)
  | none =>
    match (g1.decks.getD deckIdx ⟨[]⟩).cards with
    | [] => Except.ok ({ g1 with state := "PLAYING" }, pick.2)
    | _ :: _ => Except.error "TypeError: Cannot read properties of null"

/-- `Game.start()`: both phases.  `fresh` is the model's fresh
object-identity counter (it must exceed every identity already present in
`g` to mirror heap allocation). -/
def startR (g : Game) (fresh : Nat) (rng : RNG) : Except String (Game × RNG) :=
  match startPrep g fresh rng with
  | Except.error e => Except.error e
  | Except.ok (g, _, rng) => startFinish g rng

/-- `Card.toJSON()`. -/
def Card.toJSON (c : Card) : CardJSON :=
  ⟨c.color, c.value, c.wild, c.wildPickedColor⟩

/-- `Deck.toJSON()`: a plain ordered list of card payloads. -/
def Deck.toJSON (d : Deck) : List CardJSON := d.cards.map Card.toJSON

/-- `Card.fromJSON(json)`: reconstruct through the constructor, then
overwrite the picked color when the payload carries a truthy one.  `cid` is
the fresh identity of the new object. -/
def Card.fromJSON (j : CardJSON) (cid : Nat) : Card :=
  let c := Card.make cid j.color j.value j.wild
  match j.wildPickedColor with
  | some col => { c with wildPickedColor := some col }
  | none => c

/-- `Deck.fromJSON(json)`: one fresh card object per payload. -/
def Deck.fromJSON (l : List CardJSON) (base : Nat) : Deck :=
  ⟨l.enum.map fun ij => Card.fromJSON ij.2 (base + ij.1)⟩

/-- `Player.toJSON()`. -/
def Player.toJSON (p : Player) : PlayerJSON := ⟨p.id, p.name, p.hand.toJSON⟩

/-- `Player.fromJSON(json)`: a fresh player object owning fresh card
objects. -/
def Player.fromJSON (j : PlayerJSON) (base : Nat) : Player :=
  { pid := base, name := j.name, id := j.id, hand := Deck.fromJSON j.hand (base + 1) }

/-- `json.players.map(Player.fromJSON)` with fresh-identity threading. -/
def playersFromJSON (l : List PlayerJSON) (base : Nat) : List Player :=
  match l with
  | [] => []
  | j :: rest => Player.fromJSON j base :: playersFromJSON rest (base + 1 + j.hand.length)

/-- `json.decks.map(Deck.fromJSON)` with fresh-identity threading. -/
def decksFromJSON (l : List (List CardJSON)) (base : Nat) : List Deck :=
  match l with
  | [] => []
  | j :: rest => Deck.fromJSON j base :: decksFromJSON rest (base + j.length)

/-- The object returned by `Game.toJSON()`.  Its `currentPlayer` field is
the live `Player` reference itself (the source serializes
`this.currentPlayer` without conversion), while `players`, `decks` and
`discardedCards` are plain payloads.  `stackDrawAmount` is not serialized. -/
structure GameJSON where
  config : Config
  initPlayers : List InitEntry
  rotation : String
  currentPlayer : Option Player
  state : String
  discardedCards : List CardJSON
  decks : List (List CardJSON)
  players : List PlayerJSON
deriving DecidableEq, Repr

/-- `initPlayers.map(p => p instanceof Player ? p.toJSON() : p)`. -/
def InitEntry.toJSON : InitEntry → InitEntry
  | InitEntry.obj p => InitEntry.pjson p.toJSON
  | e => e

/-- `Game.toJSON()`. -/
def Game.toJSON (g : Game) : GameJSON :=
  { config := g.config,
    initPlayers := g.initPlayers.map InitEntry.toJSON,
    rotation := g.rotation,
    currentPlayer := g.currentPlayer,
    state := g.state,
    discardedCards := g.discardedCards.toJSON,
    decks := g.decks.map Deck.toJSON,
    players := g.players.map Player.toJSON }

/-- `Game.fromJSON(json, config)`: the four presence checks pass for any
structurally well-formed payload; a new `Game` is constructed from
`json.initPlayers` (throwing when an entry is a serialized payload), then
rotation, the raw `currentPlayer` reference, freshly reconstructed decks,
players and discard pile, and the state string are installed.
`stackDrawAmount` stays 0.  `base` is the fresh-identity counter for the
reconstructed objects. -/
def Game.fromJSON (j : GameJSON) (config : Config) (base : Nat) : Except String Game :=
  match mkGame j.initPlayers config with
  | Except.error e => Except.error e
  | Except.ok game =>
    let decks := decksFromJSON j.decks base
    let base2 := base + (j.decks.map List.length).sum
    let players := playersFromJSON j.players base2
    let base3 := base2 + (j.players.map fun p => 1 + p.hand.length).sum
    Except.ok { game with
      rotation := j.rotation,
      currentPlayer := j.currentPlayer,
      decks := decks,
      players := players,
      discardedCards := Deck.fromJSON j.discardedCards base3,
      state := j.state }

/-- The card count the conservation claim tracks: all draw decks plus all
players' hands plus the discard pile. -/
def totalCards (g : Game) : Nat :=
  (g.decks.map fun d => d.cards.length).sum +
  (g.players.map fun p => p.hand.cards.length).sum +
  g.discardedCards.cards.length

/-- The cards held by the draw decks alone. -/
def sumDecks (g : Game) : Nat := (g.decks.map fun d => d.cards.length).sum

/-- The cards held by the players' hands alone. -/
def sumHands (g : Game) : Nat := (g.players.map fun p => p.hand.cards.length).sum

/-! ## Shared helper definitions and concrete fixtures -/

/-- A placeholder game used only to totalize `Except` extraction in
concrete computations. -/
def dummyGame : Game :=
  { config := ⟨"CW", 1, 1, false⟩, initPlayers := [], rotation := "CW",
    currentPlayer := none, state := "NOT_STARTED", stackDrawAmount := 0,
    discardedCards := ⟨[]⟩, decks := [], players := [] }

/-- Extract the game from a successful game-returning call. -/
def okGame (e : Except String (Game × RNG)) : Game :=
  match e with
  | Except.ok p => p.1
  | Except.error _ => dummyGame

/-- First-match removal as a direct recursion: the reference form of
`findIndex` + `splice` used by `Deck.removeCard`. -/
def removeFirst (card : Card) : List Card → Bool × List Card
  | [] => (false, [])
  | c :: rest =>
    if removeMatches card c then (true, rest)
    else
      let r := removeFirst card rest
      (r.1, c :: r.2)

/-- Specification of one full pass of the draw loop under sufficient deck
supply, relative to the starting state, player and accumulator: exactly `k`
cards drawn into the hand, exactly `k` cards off the decks, nothing else
touched. -/
def DrawLoopSpec (g : Game) (p : Player) (acc : List Card) (rng : RNG) (k : Nat)
    (out : List Card × Player × Game × RNG) : Prop :=
  out.1.length = acc.length + k ∧
  out.2.1.hand.cards.length = p.hand.cards.length + k ∧
  sumDecks out.2.2.1 + k = sumDecks g ∧
  out.2.1.pid = p.pid ∧
  out.2.2.1.players = g.players ∧
  out.2.2.1.discardedCards = g.discardedCards ∧
  out.2.2.1.state = g.state ∧
  out.2.2.1.currentPlayer = g.currentPlayer ∧
  out.2.2.1.config = g.config ∧
  out.2.2.1.stackDrawAmount = g.stackDrawAmount ∧
  out.2.2.1.rotation = g.rotation ∧
  out.2.2.2 = rng

/-- The opening-card candidate list `startFinish` draws from: the active
deck filtered by the opening-discard rule. -/
def startFinishCandidates (g : Game) (rng : RNG) : List Card :=
  ((getDeckR g rng).1.decks.getD (getDeckR g rng).2.1 ⟨[]⟩).cards.filter validFirstCard

/-- Extract the game from a successful `mkGame` call. -/
def okGameE (e : Except String Game) : Game :=
  match e with
  | Except.ok g => g
  | Except.error _ => dummyGame

/-- Extract the result of a successful `startPrep` call. -/
def okPrep (e : Except String (Game × Nat × RNG)) : Game × Nat × RNG :=
  match e with
  | Except.ok t => t
  | Except.error _ => (dummyGame, 0, [])

/-- Extract the result of a successful `startR` call. -/
def okStart (e : Except String (Game × RNG)) : Game × RNG :=
  match e with
  | Except.ok t => t
  | Except.error _ => (dummyGame, [])

/-- A `Player` object carrying one pre-held card, supplied directly to the
`Game` constructor. -/
def stuffedPlayer : Player := ⟨50, "S", 0, ⟨[Card.make 40 Color.RED Value.FIVE false]⟩⟩

/-- A 2-player config with one initial card per hand. -/
def c6Cfg : Config := ⟨"CW", 2, 1, false⟩

/-- Fixed random oracle used by the concrete start computations. -/
def c6Rng : RNG := List.replicate 120 0

/-- The game built from a pre-loaded `Player` object plus a name. -/
def c6cBase : Game := okGameE (mkGame [InitEntry.obj stuffedPlayer, InitEntry.str "B"] c6Cfg)

/-- That game after `start()`. -/
def c6cStarted : Game := (okStart (startR c6cBase 200 c6Rng)).1

/-- The fresh 2-player, 2-initial-cards game for the C6 witness. -/
def c6wCfg : Config := ⟨"CW", 2, 2, false⟩

/-- Its base game from two name entries. -/
def c6wBase : Game := okGameE (mkGame [InitEntry.str "A", InitEntry.str "B"] c6wCfg)

/-- Its dealing phase result. -/
def c6wPrep : Game × Nat × RNG := okPrep (startPrep c6wBase 0 c6Rng)

/-- Its full `start()` result. -/
def c6wStart : Game × RNG := okStart (startR c6wBase 0 c6Rng)

/-- A card object (by identity) present in a player's hand. -/
def handHasCid (q : Player) (cid : Nat) : Prop := ∃ c ∈ q.hand.cards, c.cid = cid

/-- Every card object held by some player is still held by the same player
(by identity) afterwards; hands only grow or keep their card objects. -/
def HandsGrow (g gNext : Game) : Prop :=
  ∀ pid cid, (∃ q ∈ g.players, q.pid = pid ∧ handHasCid q cid) →
    ∃ q ∈ gNext.players, q.pid = pid ∧ handHasCid q cid

/-- The config for the C1 round-trip game. -/
def c1Cfg : Config := ⟨"CW", 2, 1, false⟩

/-- A fresh 2-player game from name entries. -/
def c1Base : Game := okGameE (mkGame [InitEntry.str "A", InitEntry.str "B"] c1Cfg)

/-- That game after `start()` (current player is A at index 0). -/
def c1Started : Game := (okStart (startR c1Base 0 c6Rng)).1

/-- The round trip `Game.fromJSON(game.toJSON())`. -/
def c1RT : Game := okGameE (Game.fromJSON (Game.toJSON c1Started) c1Cfg 1000)

/-- The started game's current player object. -/
def c1Cur : Player := (c1Started.currentPlayer).getD stuffedPlayer

/-- Two distinct card objects with the same color and value, the matching
one sitting in front of the identical one. -/
def c4first : Card := Card.make 10 Color.RED Value.FIVE false

/-- The card passed to `removeCard`: present in the deck by identity, but
behind a color+value twin. -/
def c4second : Card := Card.make 11 Color.RED Value.FIVE false

/-- A deck holding the twin first and the identical object second. -/
def c4deck : Deck := ⟨[c4first, c4second]⟩

/-- A wild card whose picked color is still the BLACK default. -/
def wildPickedBlack : Card := Card.make 0 Color.BLACK Value.WILD false

/-- A wild top card. -/
def wildTop : Card := Card.make 1 Color.BLACK Value.WILD_DRAW_FOUR false

/-- A plain colored top card. -/
def redFive : Card := Card.make 2 Color.RED Value.FIVE false

/-- The deck for the C10 witness: one BLACK WILD_DRAW_FOUR card. -/
def c10deck : Deck := ⟨[Card.make 20 Color.BLACK Value.WILD_DRAW_FOUR false]⟩

/-- The card `getCard(undefined, WILD_DRAW_FOUR)` returns from `c10deck`:
the same object with its picked color overwritten to `undefined`. -/
def c10card : Card :=
  { Card.make 20 Color.BLACK Value.WILD_DRAW_FOUR false with wildPickedColor := none }

/-- Player A's DRAW_TWO. -/
def cardAD2 : Card := Card.make 100 Color.RED Value.DRAW_TWO false

/-- Player A's other card (not a DRAW_TWO). -/
def cardGT : Card := Card.make 101 Color.GREEN Value.THREE false

/-- Player B's DRAW_TWO. -/
def cardBD2 : Card := Card.make 102 Color.BLUE Value.DRAW_TWO false

/-- Player B's other card. -/
def cardYS : Card := Card.make 103 Color.YELLOW Value.SEVEN false

/-- Player A (current player). -/
def c2pA : Player := ⟨0, "A", 0, ⟨[cardAD2, cardGT]⟩⟩

/-- Player B. -/
def c2pB : Player := ⟨1, "B", 1, ⟨[cardBD2, cardYS]⟩⟩

/-- The draw pile: six plain number cards. -/
def c2deckCards : List Card :=
  [Card.make 105 Color.BLUE Value.ONE false, Card.make 106 Color.YELLOW Value.TWO false,
   Card.make 107 Color.GREEN Value.FOUR false, Card.make 108 Color.RED Value.SIX false,
   Card.make 109 Color.BLUE Value.EIGHT false, Card.make 110 Color.GREEN Value.NINE false]

/-- A running 2-player game with `stackCards` enabled: A (current) holds a
RED DRAW_TWO playable on the RED FIVE discard top, B holds a BLUE
DRAW_TWO. -/
def c2g0 : Game :=
  { config := ⟨"CW", 2, 7, true⟩,
    initPlayers := [InitEntry.str "A", InitEntry.str "B"],
    rotation := "CW", currentPlayer := some c2pA, state := "PLAYING",
    stackDrawAmount := 0,
    discardedCards := ⟨[Card.make 104 Color.RED Value.FIVE false]⟩,
    decks := [⟨c2deckCards⟩],
    players := [c2pA, c2pB] }

/-- Extract the game from a successful `playR` call. -/
def okPlay (e : Except String (Bool × Game × RNG)) : Game :=
  match e with
  | Except.ok p => p.2.1
  | Except.error _ => dummyGame

/-- The game after A plays the RED DRAW_TWO. -/
def c2g1 : Game := okPlay (playR c2g0 c2pA cardAD2 [])

/-- The game after B then plays the BLUE DRAW_TWO. -/
def c2g2 : Game := okPlay (playR c2g1 c2pB cardBD2 [])

/-- A `Player` object that is not a member of `c2g0.players`. -/
def strangerPlayer : Player := ⟨5, "C", 5, ⟨[]⟩⟩

/-! ## Helper lemmas -/

theorem findIdx?_eraseIdx_eq_removeFirst (card : Card) (l : List Card) :
    (match l.findIdx? (removeMatches card) with
     | none => (false, l)
     | some i => (true, l.eraseIdx i)) = removeFirst card l := by
  induction l with
  | nil => simp [removeFirst]
  | cons c rest ih =>
    by_cases h : removeMatches card c
    · simp [List.findIdx?_cons, h, removeFirst, List.eraseIdx]
    · simp only [List.findIdx?_cons, h, if_neg, Bool.false_eq_true, if_false,
        List.findIdx?_succ, removeFirst]
      rcases hf : rest.findIdx? (removeMatches card) with _ | i <;>
        simp [hf] at ih ⊢ <;> simp [← ih, List.eraseIdx]

/-- `Deck.removeCard` computes first-match removal. -/
theorem removeCard_eq_removeFirst (d : Deck) (card : Card) :
    d.removeCard card = ((removeFirst card d.cards).1, ⟨(removeFirst card d.cards).2⟩) := by
  rw [Deck.removeCard, ← findIdx?_eraseIdx_eq_removeFirst]
  rcases d.cards.findIdx? (removeMatches card) with _ | i <;> rfl

theorem removeFirst_not_found (card : Card) (l : List Card)
    (h : ∀ y ∈ l, removeMatches card y = false) :
    removeFirst card l = (false, l) := by
  induction l with
  | nil => rfl
  | cons c rest ih =>
    have hc := h c (by simp)
    simp [removeFirst, hc, ih fun y hy => h y (by simp [hy])]

theorem removeFirst_found (card x : Card) (pre post : List Card)
    (hx : removeMatches card x = true)
    (hpre : ∀ y ∈ pre, removeMatches card y = false) :
    removeFirst card (pre ++ x :: post) = (true, pre ++ post) := by
  induction pre with
  | nil => simp [removeFirst, hx]
  | cons c rest ih =>
    have hc := hpre c (by simp)
    simp [removeFirst, hc, ih fun y hy => hpre y (by simp [hy])]

theorem removeFirst_fst_eq_any (card : Card) (l : List Card) :
    (removeFirst card l).1 = l.any (removeMatches card) := by
  induction l with
  | nil => rfl
  | cons c rest ih =>
    by_cases h : removeMatches card c <;> simp [removeFirst, h, ih]

theorem removeFirst_length (card : Card) (l : List Card) :
    (removeFirst card l).2.length = if (removeFirst card l).1 then l.length - 1 else l.length := by
  induction l with
  | nil => rfl
  | cons c rest ih =>
    by_cases h : removeMatches card c
    · simp [removeFirst, h]
    · rcases hr : (removeFirst card rest).1 with _ | _ <;>
        simp [removeFirst, h, hr, ih] <;>
      rcases rest with _ | ⟨a, as⟩ <;> simp_all [removeFirst] <;>
        rcases hm : removeMatches card a <;> simp_all <;> omega

theorem listSwap_length (l : List Card) (i j : Nat) :
    (listSwap l i j).length = l.length := by
  unfold listSwap
  rcases l.get? i with _ | a <;> rcases l.get? j with _ | b <;> simp

theorem shuffleGo_length (i : Nat) : ∀ (cards : List Card) (rng : RNG),
    (shuffleGo cards i rng).1.length = cards.length := by
  induction i with
  | zero => intro cards rng; rfl
  | succ k ih =>
    intro cards rng
    rw [shuffleGo]
    rw [ih]
    exact listSwap_length _ _ _

theorem shuffle_length (d : Deck) (rng : RNG) :
    (Deck.shuffle d rng).1.cards.length = d.cards.length := by
  unfold Deck.shuffle
  simp [shuffleGo_length]

theorem insertDefaultCards_length (base : Nat) (rng : RNG) :
    (Deck.insertDefaultCards base rng).1.cards.length = 108 := by
  unfold Deck.insertDefaultCards
  simp only [shuffle_length]
  simp [List.enum_length]
  decide

theorem sum_set_deck : ∀ (ds : List Deck) (i : Nat) (d : Deck), i < ds.length →
    ((ds.set i d).map fun x => x.cards.length).sum + (ds.getD i ⟨[]⟩).cards.length
      = (ds.map fun x => x.cards.length).sum + d.cards.length := by
  intro ds
  induction ds with
  | nil => intro i d h; cases h
  | cons a as ih =>
    intro i d h
    cases i with
    | zero => simp [List.getD]; omega
    | succ n =>
      have hn : n < as.length := by simpa using h
      have := ih n d hn
      simp only [List.set, List.map, List.sum_cons, List.getD, List.get?] at this ⊢
      omega

theorem all_empty_of_findIdx?_none (ds : List Deck)
    (h : ds.findIdx? (fun d => !d.cards.isEmpty) = none) :
    (ds.map fun d => d.cards.length).sum = 0 := by
  rw [List.findIdx?_eq_none_iff] at h
  rw [List.sum_eq_zero]
  intro x hx
  rcases List.mem_map.mp hx with ⟨d, hd, rfl⟩
  have := h d hd
  simp only [Bool.not_eq_false'] at this
  simp [List.isEmpty_iff.mp this]

theorem nonempty_of_findIdx?_some (ds : List Deck) (i : Nat)
    (h : ds.findIdx? (fun d => !d.cards.isEmpty) = some i) :
    i < ds.length ∧ (ds.getD i ⟨[]⟩).cards ≠ [] := by
  rcases List.findIdx?_eq_some_iff_getElem.mp h with ⟨hlt, hp, _⟩
  refine ⟨hlt, ?_⟩
  have : ds.getD i ⟨[]⟩ = ds[i] := List.getD_eq_getElem ds ⟨[]⟩ hlt
  rw [this]
  simpa [List.isEmpty_iff] using hp

theorem getDeckR_of_found (g : Game) (rng : RNG) (i : Nat)
    (h : g.decks.findIdx? (fun d => !d.cards.isEmpty) = some i) :
    getDeckR g rng = (g, i, rng) := by
  unfold getDeckR
  rw [h]

theorem getDeckR_frame (g : Game) (rng : RNG) :
    (getDeckR g rng).1.players = g.players ∧
    (getDeckR g rng).1.state = g.state ∧
    (getDeckR g rng).1.config = g.config ∧
    (getDeckR g rng).1.currentPlayer = g.currentPlayer ∧
    (getDeckR g rng).1.stackDrawAmount = g.stackDrawAmount ∧
    (getDeckR g rng).1.rotation = g.rotation := by
  unfold getDeckR
  rcases hf : g.decks.findIdx? (fun d => !d.cards.isEmpty) with _ | i <;> rw [hf] <;> simp

theorem getDeckR_totalCards (g : Game) (rng : RNG) :
    totalCards (getDeckR g rng).1 = totalCards g := by
  unfold getDeckR
  rcases hf : g.decks.findIdx? (fun d => !d.cards.isEmpty) with _ | i
  case some => rw [hf]
  case none =>
    rw [hf]
    have hsum := all_empty_of_findIdx?_none g.decks hf
    rcases hd : g.discardedCards.cards with _ | ⟨t, rest⟩ <;>
      simp [totalCards, Deck.getTopCardRemove, hd, hsum, shuffle_length, Deck.addCard] <;>
      try omega

theorem getDeckR_discard_empty (g : Game) (rng : RNG)
    (h : g.discardedCards.cards = []) :
    (getDeckR g rng).1.discardedCards.cards = []
    ∧ sumDecks (getDeckR g rng).1 = sumDecks g := by
  unfold getDeckR
  rcases hf : g.decks.findIdx? (fun d => !d.cards.isEmpty) with _ | i <;> rw [hf]
  · have hsum := all_empty_of_findIdx?_none g.decks hf
    simp [Deck.getTopCardRemove, h, sumDecks, hsum, shuffle_length]
  · simp [h]

theorem syncPlayer_players_of_absent (g : Game) (p : Player)
    (h : ∀ q ∈ g.players, q.pid ≠ p.pid) :
    (syncPlayer g p).players = g.players := by
  unfold syncPlayer
  simp only
  have : ∀ q ∈ g.players, (if q.pid = p.pid then p else q) = id q := by
    intro q hq
    simp [h q hq]
  rw [List.map_congr_left this, List.map_id]

theorem syncPlayer_frame (g : Game) (p : Player) :
    (syncPlayer g p).decks = g.decks ∧
    (syncPlayer g p).discardedCards = g.discardedCards ∧
    (syncPlayer g p).state = g.state ∧
    (syncPlayer g p).config = g.config ∧
    (syncPlayer g p).stackDrawAmount = g.stackDrawAmount ∧
    (syncPlayer g p).rotation = g.rotation := by
  unfold syncPlayer
  simp

/-- The one-step accounting of the deck the draw loop takes a card from. -/
theorem sumDecks_take_step (g : Game) (idx : Nat) (c : Card) (rest : List Card)
    (hc : (g.decks.getD idx ⟨[]⟩).cards = c :: rest) :
    sumDecks { g with decks := g.decks.set idx ⟨rest⟩ } + 1 = sumDecks g := by
  have hlt : idx < g.decks.length := by
    by_contra hge
    rw [List.getD_eq_default _ _ (by omega)] at hc
    cases hc
  have h := sum_set_deck g.decks idx ⟨rest⟩ hlt
  rw [hc] at h
  simp only [List.length_cons] at h
  simp only [sumDecks]
  omega

theorem DrawLoopSpec_step (g : Game) (p : Player) (acc : List Card) (rng : RNG) (r : Nat)
    (idx : Nat) (c : Card) (rest : List Card)
    (hc : (g.decks.getD idx ⟨[]⟩).cards = c :: rest)
    (out : List Card × Player × Game × RNG)
    (hout : DrawLoopSpec { g with decks := g.decks.set idx ⟨rest⟩ }
      { p with hand := p.hand.addCard c } (c :: acc) rng r out) :
    DrawLoopSpec g p acc rng (r + 1) out := by
  have hstep := sumDecks_take_step g idx c rest hc
  obtain ⟨h1, h2, h3, h4, h5, h6, h7, h8, h9, h10, h11, h12⟩ := hout
  refine ⟨?_, ?_, ?_, h4, h5, h6, h7, h8, h9, h10, h11, h12⟩
  · simp only [List.length_cons] at h1
    omega
  · simp only [Deck.addCard, List.length_cons] at h2
    omega
  · omega

/-- The draw loop under sufficient deck supply meets `DrawLoopSpec`. -/
theorem drawLoop_supply : ∀ (k : Nat) (g : Game) (idx : Nat) (p : Player)
    (acc : List Card) (rng : RNG), k ≤ sumDecks g →
    DrawLoopSpec g p acc rng k (drawLoop g idx p k acc rng) := by
  intro k
  induction k with
  | zero =>
    intro g idx p acc rng _
    refine ⟨?_, ?_, ?_, ?_, ?_, ?_, ?_, ?_, ?_, ?_, ?_, ?_⟩ <;> simp [drawLoop]
  | succ r ih =>
    intro g idx p acc rng hsup
    rw [drawLoop]
    rcases hc : (g.decks.getD idx ⟨[]⟩).cards with _ | ⟨c, rest⟩ <;> dsimp only
    · -- current deck empty: re-fetch via #getDeck
      rcases hf : g.decks.findIdx? (fun d => !d.cards.isEmpty) with _ | j
      · exfalso
        have h0 := all_empty_of_findIdx?_none g.decks hf
        rw [sumDecks] at hsup
        omega
      · rw [getDeckR_of_found g rng j hf]
        dsimp only
        rcases nonempty_of_findIdx?_some g.decks j hf with ⟨_, hne⟩
        rcases hcj : (g.decks.getD j ⟨[]⟩).cards with _ | ⟨c2, rest2⟩
        · exact absurd hcj hne
        · dsimp only
          have hstep := sumDecks_take_step g j c2 rest2 hcj
          exact DrawLoopSpec_step g p acc rng r j c2 rest2 hcj _
            (ih _ j _ (c2 :: acc) rng (by omega))
    · have hstep := sumDecks_take_step g idx c rest hc
      exact DrawLoopSpec_step g p acc rng r idx c rest hc _
        (ih _ idx _ (c :: acc) rng (by omega))

theorem sumDecks_syncPlayer (g : Game) (p : Player) :
    sumDecks (syncPlayer g p) = sumDecks g := by
  simp [syncPlayer, sumDecks]

theorem findIdx?_ne_none_of_sumDecks_pos (g : Game) (h : 1 ≤ sumDecks g) :
    ∃ j, g.decks.findIdx? (fun d => !d.cards.isEmpty) = some j := by
  rcases hf : g.decks.findIdx? (fun d => !d.cards.isEmpty) with _ | j
  · have := all_empty_of_findIdx?_none g.decks hf
    rw [sumDecks] at h
    omega
  · exact ⟨j, hf⟩

/-- `Game.draw` during dealing (forced, silent, no turn advance) with
sufficient supply: it succeeds, puts exactly `initialCards` cards into the
player's (possibly detached) hand, takes them off the decks, and leaves
everything else alone — including the random oracle, since no reshuffle
happens. -/
theorem drawR_deal (g : Game) (p : Player) (ic : Nat) (rng : RNG)
    (hic : 1 ≤ ic) (hsup : ic ≤ sumDecks g)
    (hstate : ¬g.state = "STACK_DRAW")
    (habsent : ∀ q ∈ g.players, q.pid ≠ p.pid)
    (hcp : g.currentPlayer = none) :
    ∃ p' g', drawR g p (Int.ofNat ic) false true true true rng =
        Except.ok (true, p', g', rng) ∧
      p'.hand.cards.length = p.hand.cards.length + ic ∧
      p'.pid = p.pid ∧
      sumDecks g' + ic = sumDecks g ∧
      g'.players = g.players ∧
      g'.discardedCards = g.discardedCards ∧
      g'.state = g.state ∧
      g'.currentPlayer = none ∧
      g'.config = g.config ∧
      g'.stackDrawAmount = g.stackDrawAmount ∧
      g'.rotation = g.rotation := by
  obtain ⟨j, hj⟩ := findIdx?_ne_none_of_sumDecks_pos g (le_trans hic hsup)
  have hspec := drawLoop_supply ic g j p [] rng hsup
  rcases hout : drawLoop g j p ic [] rng with ⟨drawn, p', g', rngOut⟩
  rw [hout] at hspec
  unfold DrawLoopSpec at hspec
  dsimp only at hspec
  obtain ⟨h1, h2, h3, h4, h5, h6, h7, h8, h9, h10, h11, h12⟩ := hspec
  subst h12
  refine ⟨p', syncPlayer g' p', ?_, by omega, h4, ?_, ?_, ?_, ?_, ?_, ?_, ?_, ?_⟩
  · rw [drawR]
    have hlt : ¬(Int.ofNat ic < 1) := by
      rw [Int.ofNat_eq_natCast]
      omega
    rw [if_neg hlt]
    rw [show (!true && !(isCurrent g p)) = false from rfl]
    rw [if_neg (by simp : ¬(false = true))]
    rw [getDeckR_of_found g rngOut j hj]
    dsimp only
    have hsd : (g.state == "STACK_DRAW") = false := by simpa using hstate
    rw [hsd]
    simp only [Bool.false_eq_true, if_false]
    rw [show (Int.ofNat ic).toNat = ic from rfl]
    rw [hout]
    dsimp only
    have hln : (drawn.length == ic) = true := by
      simp only [h1, List.length_nil, Nat.zero_add]
      simp
    rw [hln]
  · rw [sumDecks_syncPlayer]
    exact h3
  · rw [syncPlayer_players_of_absent g' p' ?hab]
    · exact h5
    case hab =>
      rw [h5]
      intro q hq
      rw [h4]
      exact habsent q hq
  · exact (syncPlayer_frame g' p').2.1.trans h6
  · exact (syncPlayer_frame g' p').2.2.1.trans h7
  · rw [syncPlayer]
    simp [h8, hcp]
  · exact (syncPlayer_frame g' p').2.2.2.1.trans h9
  · exact (syncPlayer_frame g' p').2.2.2.2.1.trans h10
  · exact (syncPlayer_frame g' p').2.2.2.2.2.trans h11

theorem buildDecks_spec : ∀ (n : Nat) (g : Game) (fresh : Nat) (rng : RNG),
    sumDecks (buildDecks g n fresh rng).1 = sumDecks g + 108 * n ∧
    (buildDecks g n fresh rng).1.players = g.players ∧
    (buildDecks g n fresh rng).1.discardedCards = g.discardedCards ∧
    (buildDecks g n fresh rng).1.state = g.state ∧
    (buildDecks g n fresh rng).1.currentPlayer = g.currentPlayer ∧
    (buildDecks g n fresh rng).1.config = g.config ∧
    (buildDecks g n fresh rng).1.initPlayers = g.initPlayers := by
  intro n
  induction n with
  | zero => intro g fresh rng; simp [buildDecks]
  | succ m ih =>
    intro g fresh rng
    rw [buildDecks]
    obtain ⟨s1, s2, s3, s4, s5, s6, s7⟩ :=
      ih { g with decks := g.decks ++ [(Deck.insertDefaultCards fresh rng).1] }
        (fresh + 108) (Deck.insertDefaultCards fresh rng).2
    refine ⟨?_, s2, s3, s4, s5, s6, s7⟩
    rw [s1]
    have : sumDecks { g with decks := g.decks ++ [(Deck.insertDefaultCards fresh rng).1] }
        = sumDecks g + 108 := by
      simp [sumDecks, insertDefaultCards_length]
    rw [this]
    ring

theorem mkGame_fields (entries : List InitEntry) (cfg : Config) (g : Game)
    (h : mkGame entries cfg = Except.ok g) :
    g.config = cfg ∧ g.initPlayers = entries ∧ g.rotation = cfg.defaultRotation ∧
    g.currentPlayer = none ∧ g.state = "NOT_STARTED" ∧ g.stackDrawAmount = 0 ∧
    g.discardedCards = ⟨[]⟩ ∧ g.decks = [] ∧ g.players = [] := by
  unfold mkGame at h
  split at h
  · cases h
  · injection h with h
    subst h
    exact ⟨rfl, rfl, rfl, rfl, rfl, rfl, rfl, rfl, rfl⟩

theorem getRandomCard_mem (arr : List Card) (rng : RNG) (h : arr ≠ []) :
    ∃ c, (getRandomCard arr rng).1 = some c ∧ c ∈ arr := by
  unfold getRandomCard
  rw [if_neg (by simpa [List.isEmpty_iff] using h)]
  dsimp only
  have hpos : 0 < arr.length := List.length_pos.mpr h
  have hlt : (RNG.next rng).1 % arr.length < arr.length := Nat.mod_lt _ hpos
  rcases hg : arr.get? ((RNG.next rng).1 % arr.length) with _ | c
  · rw [List.get?_eq_none] at hg
    omega
  · exact ⟨c, rfl, List.get?_mem hg⟩

theorem dealPlayers_spec : ∀ (entries : List InitEntry) (g : Game) (i fresh : Nat) (rng : RNG),
    (∀ e ∈ entries, ∃ s, e = InitEntry.str s) →
    1 ≤ g.config.initialCards →
    entries.length * g.config.initialCards ≤ sumDecks g →
    ¬g.state = "STACK_DRAW" →
    g.currentPlayer = none →
    (∀ q ∈ g.players, q.pid < fresh) →
    ∃ g2 fresh2, dealPlayers g entries i fresh rng = Except.ok (g2, fresh2, rng) ∧
      (∀ p ∈ g2.players, p ∈ g.players ∨ p.hand.cards.length = g.config.initialCards) ∧
      g2.players.length = g.players.length + entries.length ∧
      sumDecks g2 + entries.length * g.config.initialCards = sumDecks g ∧
      g2.discardedCards = g.discardedCards ∧
      g2.state = g.state ∧
      g2.currentPlayer = none ∧
      g2.config = g.config ∧
      g2.rotation = g.rotation := by
  intro entries
  induction entries with
  | nil =>
    intro g i fresh rng _ _ _ _ hcp _
    exact ⟨g, fresh, rfl, fun p hp => Or.inl hp, by simp, by simp, rfl, rfl, hcp, rfl, rfl⟩
  | cons e rest ih =>
    intro g i fresh rng hstr hic hsup hstate hcp hfresh
    obtain ⟨s, rfl⟩ := hstr e (by simp)
    rw [dealPlayers]
    have hsup1 : g.config.initialCards ≤ sumDecks g := by
      simp only [List.length_cons, Nat.succ_mul] at hsup
      omega
    obtain ⟨p', g', heq, hh1, hpid, hsum, hpl, hdisc, hst, hcp', hcfg, hsda, hrot⟩ :=
      drawR_deal g (Player.mk fresh s (Int.ofNat i) ⟨[]⟩) g.config.initialCards rng hic hsup1
        hstate (fun q hq => Nat.ne_of_lt (hfresh q hq)) hcp
    rw [heq]
    have hstr2 : ∀ e ∈ rest, ∃ t, e = InitEntry.str t :=
      fun e he => hstr e (List.mem_cons_of_mem _ he)
    have hfresh2 : ∀ q ∈ g'.players ++ [p'], q.pid < fresh + 1 := by
      intro q hq
      rw [hpl] at hq
      rcases List.mem_append.mp hq with hin | hin
      · have := hfresh q hin
        omega
      · rw [List.mem_singleton.mp hin, hpid]
        exact Nat.lt_succ_self fresh
    obtain ⟨g2, fresh2, heq2, hmem2, hlen2, hsum2, hdisc2, hst2, hcp2, hcfg2, hrot2⟩ :=
      ih { g' with players := g'.players ++ [p'] } (i + 1) (fresh + 1) rng hstr2
        (by show 1 ≤ g'.config.initialCards
            rw [hcfg]
            exact hic)
        (by show rest.length * g'.config.initialCards ≤ sumDecks g'
            rw [hcfg]
            simp only [List.length_cons, Nat.succ_mul] at hsup
            omega)
        (by show ¬g'.state = "STACK_DRAW"
            rw [hst]
            exact hstate)
        (show g'.currentPlayer = none from hcp')
        hfresh2
    refine ⟨g2, fresh2, heq2, ?_, ?_, ?_, ?_, ?_, hcp2, ?_, ?_⟩
    · intro p hp
      rcases hmem2 p hp with hin | hln
      · have hin2 : p ∈ g'.players ++ [p'] := hin
        rw [hpl] at hin2
        rcases List.mem_append.mp hin2 with hin3 | hin3
        · exact Or.inl hin3
        · right
          rw [List.mem_singleton.mp hin3]
          simpa using hh1
      · right
        have hln2 : p.hand.cards.length = g'.config.initialCards := hln
        rw [hcfg] at hln2
        exact hln2
    · have hlen3 : (g'.players ++ [p']).length = g.players.length + 1 := by
        rw [hpl]
        simp
      have hlen4 : g2.players.length = (g'.players ++ [p']).length + rest.length := hlen2
      rw [hlen3] at hlen4
      simp only [List.length_cons]
      omega
    · have hsum3 : sumDecks g2 + rest.length * g'.config.initialCards = sumDecks g' := hsum2
      rw [hcfg] at hsum3
      simp only [List.length_cons, Nat.succ_mul]
      omega
    · have : g2.discardedCards = g'.discardedCards := hdisc2
      rw [this, hdisc]
    · have : g2.state = g'.state := hst2
      rw [this, hst]
    · have : g2.config = g'.config := hcfg2
      rw [this, hcfg]
    · have : g2.rotation = g'.rotation := hrot2
      rw [this, hrot]

theorem startPrep_spec (g : Game) (fresh : Nat) (rng : RNG) (g1 : Game)
    (fresh1 : Nat) (rng1 : RNG)
    (hstr : ∀ e ∈ g.initPlayers, ∃ s, e = InitEntry.str s)
    (hic : 1 ≤ g.config.initialCards)
    (hn : 2 ≤ g.initPlayers.length)
    (hdecks : g.decks = [])
    (hplayers : g.players = [])
    (hstate : g.state = "NOT_STARTED")
    (hcp : g.currentPlayer = none)
    (hsupply : g.initPlayers.length * g.config.initialCards ≤
       108 * ((g.initPlayers.length + g.config.playersPerDeck - 1) / g.config.playersPerDeck))
    (hprep : startPrep g fresh rng = Except.ok (g1, fresh1, rng1)) :
    (∀ p ∈ g1.players, p.hand.cards.length = g.config.initialCards) ∧
    g1.players.length = g.initPlayers.length ∧
    g1.discardedCards = g.discardedCards ∧
    g1.state = "NOT_STARTED" ∧
    g1.config = g.config ∧
    sumDecks g1 + g.initPlayers.length * g.config.initialCards =
      108 * ((g.initPlayers.length + g.config.playersPerDeck - 1) / g.config.playersPerDeck) := by
  unfold startPrep at hprep
  rw [if_neg (by omega : ¬(g.initPlayers.length < 2))] at hprep
  have hb : (!(g.state == "NOT_STARTED")) = false := by simp [hstate]
  rw [hb] at hprep
  simp only [Bool.false_eq_true, if_false] at hprep
  obtain ⟨b1, b2, b3, b4, b5, b6, b7⟩ := buildDecks_spec
    ((g.initPlayers.length + g.config.playersPerDeck - 1) / g.config.playersPerDeck)
    g fresh rng
  obtain ⟨g2, fresh2, heq, hmem, hlen, hsum, hdisc, hst, hcp2, hcfg, hrot⟩ :=
    dealPlayers_spec
      (buildDecks g ((g.initPlayers.length + g.config.playersPerDeck - 1) / g.config.playersPerDeck) fresh rng).1.initPlayers
      (buildDecks g ((g.initPlayers.length + g.config.playersPerDeck - 1) / g.config.playersPerDeck) fresh rng).1
      0
      (buildDecks g ((g.initPlayers.length + g.config.playersPerDeck - 1) / g.config.playersPerDeck) fresh rng).2.1
      (buildDecks g ((g.initPlayers.length + g.config.playersPerDeck - 1) / g.config.playersPerDeck) fresh rng).2.2
      (by rw [b7]; exact hstr)
      (by rw [b6]; exact hic)
      (by rw [b7, b6, b1]
          have h0 : sumDecks g = 0 := by
            rw [sumDecks, hdecks]
            simp
          rw [h0]
          omega)
      (by rw [b4, hstate]; decide)
      (by rw [b5]; exact hcp)
      (by rw [b2, hplayers]; intro q hq; cases hq)
  rw [heq] at hprep
  dsimp only at hprep
  injection hprep with hprep
  rw [Prod.mk.injEq, Prod.mk.injEq] at hprep
  obtain ⟨hA, hB, hC⟩ := hprep
  rw [b2, hplayers] at hmem hlen
  rw [b3] at hdisc
  rw [b4, hstate] at hst
  rw [b6] at hcfg hmem
  rw [b7] at hlen hsum
  subst hA
  refine ⟨?_, ?_, hdisc, hst, hcfg, ?_⟩
  · intro p hp
    rcases hmem p hp with hin | hln
    · cases hin
    · exact hln
  · rw [hlen]
    simp
  · have hsd : sumDecks
        { config := g2.config, initPlayers := g2.initPlayers, rotation := g2.rotation,
          currentPlayer := (getRandomFromArr g2.players (buildDecks g ((g.initPlayers.length + g.config.playersPerDeck - 1) / g.config.playersPerDeck) fresh rng).2.2).1,
          state := g2.state, stackDrawAmount := g2.stackDrawAmount,
          discardedCards := g2.discardedCards, decks := g2.decks, players := g2.players }
        = sumDecks g2 := rfl
    rw [hsd]
    rw [b6] at hsum
    rw [b1] at hsum
    have h0 : sumDecks g = 0 := by
      rw [sumDecks, hdecks]
      simp
    rw [h0] at hsum
    omega

theorem sum_hands_const (ps : List Player) (k : Nat)
    (h : ∀ p ∈ ps, p.hand.cards.length = k) :
    (ps.map fun p => p.hand.cards.length).sum = ps.length * k := by
  induction ps with
  | nil => simp
  | cons p rest ih =>
    simp only [List.map_cons, List.sum_cons, List.length_cons]
    rw [h p (by simp), ih fun q hq => h q (by simp [hq])]
    ring

theorem startFinish_spec (g : Game) (rng : RNG) (gF : Game) (rng2 : RNG)
    (hvalid : startFinishCandidates g rng ≠ [])
    (hdiscard : g.discardedCards.cards = [])
    (hfin : startFinish g rng = Except.ok (gF, rng2)) :
    gF.discardedCards.cards.length = 1 ∧
    (∀ c ∈ gF.discardedCards.cards, validFirstCard c = true) ∧
    gF.players = g.players ∧
    gF.state = "PLAYING" ∧
    gF.config = g.config ∧
    totalCards gF = totalCards g := by
  rcases hf : g.decks.findIdx? (fun d => !d.cards.isEmpty) with _ | j
  · exfalso
    apply hvalid
    unfold startFinishCandidates getDeckR
    rw [hf]
    dsimp only
    have hlen : (⟨(g.discardedCards.getTopCardRemove.2.cards : List Card)⟩ : Deck).shuffle rng
        |>.1.cards.length = 0 := by
      rw [shuffle_length]
      simp [Deck.getTopCardRemove, hdiscard]
    rw [List.length_eq_zero] at hlen
    simp [hlen]
  · have hget := getDeckR_of_found g rng j hf
    have hcand : startFinishCandidates g rng
        = ((g.decks.getD j ⟨[]⟩).cards.filter validFirstCard) := by
      unfold startFinishCandidates
      rw [hget]
    unfold startFinish at hfin
    rw [hget] at hfin
    dsimp only at hfin
    rw [← hcand] at hfin
    obtain ⟨c, hcp, hcm⟩ := getRandomCard_mem _ rng hvalid
    rw [hcp] at hfin
    dsimp only at hfin
    injection hfin with hfin
    rw [Prod.mk.injEq] at hfin
    obtain ⟨hA, hB⟩ := hfin
    rw [hcand] at hcm
    have hcv : validFirstCard c = true := (List.mem_filter.mp hcm).2
    have hcd : c ∈ (g.decks.getD j ⟨[]⟩).cards := (List.mem_filter.mp hcm).1
    subst hA
    refine ⟨?_, ?_, rfl, rfl, rfl, ?_⟩
    · simp [Deck.addCard, hdiscard]
    · intro x hx
      simp only [Deck.addCard, hdiscard, List.mem_cons, List.not_mem_nil, or_false] at hx
      rw [hx]
      exact hcv
    · -- card conservation: one card moves from deck j to the discard pile
      have hrem : ((g.decks.getD j ⟨[]⟩).removeCard c).2.cards.length + 1
          = (g.decks.getD j ⟨[]⟩).cards.length := by
        rw [removeCard_eq_removeFirst]
        have hany : (g.decks.getD j ⟨[]⟩).cards.any (removeMatches c) = true := by
          rw [List.any_eq_true]
          exact ⟨c, hcd, by simp [removeMatches]⟩
        have hlenr := removeFirst_length c (g.decks.getD j ⟨[]⟩).cards
        rw [removeFirst_fst_eq_any, hany] at hlenr
        simp only [if_true] at hlenr
        dsimp only
        rw [hlenr]
        have hpos : 0 < (g.decks.getD j ⟨[]⟩).cards.length :=
          List.length_pos.mpr (by intro hnil; rw [hnil] at hcd; cases hcd)
        omega
      have hjlt : j < g.decks.length := (nonempty_of_findIdx?_some g.decks j hf).1
      have hset := sum_set_deck g.decks j ((g.decks.getD j ⟨[]⟩).removeCard c).2 hjlt
      simp only [totalCards, Deck.addCard, hdiscard]
      simp only [List.length_cons, List.length_nil]
      omega

/-- C6 amended: `start()` succeeding on a game of at least two fresh
(name-given) players, with at least one initial card configured, enough
built deck cards to deal every hand, and a valid opening candidate left in
the active deck after dealing, yields exactly one discard card, never
BLACK/DRAW_TWO/REVERSE/SKIP, and every hand at exactly `initialCards`;
players supplied as live `Player` objects keep their pre-held cards on top
of the deal, so the claim is restricted to name-given players. -/
theorem c6_amended (g g1 gF : Game) (fresh fresh1 : Nat) (rng rng1 rng2 : RNG)
    (hstr : ∀ e ∈ g.initPlayers, ∃ s, e = InitEntry.str s)
    (hic : 1 ≤ g.config.initialCards)
    (hn : 2 ≤ g.initPlayers.length)
    (hdecks : g.decks = [])
    (hplayers : g.players = [])
    (hdiscard : g.discardedCards.cards = [])
    (hstate : g.state = "NOT_STARTED")
    (hcp : g.currentPlayer = none)
    (hsupply : g.initPlayers.length * g.config.initialCards ≤
       108 * ((g.initPlayers.length + g.config.playersPerDeck - 1) / g.config.playersPerDeck))
    (hprep : startPrep g fresh rng = Except.ok (g1, fresh1, rng1))
    (hvalid : startFinishCandidates g1 rng1 ≠ [])
    (hstart : startR g fresh rng = Except.ok (gF, rng2)) :
    gF.discardedCards.cards.length = 1 ∧
    (∀ c ∈ gF.discardedCards.cards, validFirstCard c = true) ∧
    (∀ p ∈ gF.players, p.hand.cards.length = g.config.initialCards) := by
  obtain ⟨p1, p2, p3, p4, p5, p6⟩ :=
    startPrep_spec g fresh rng g1 fresh1 rng1 hstr hic hn hdecks hplayers hstate hcp hsupply hprep
  have hfin : startFinish g1 rng1 = Except.ok (gF, rng2) := by
    unfold startR at hstart
    rw [hprep] at hstart
    exact hstart
  obtain ⟨f1, f2, f3, f4, f5, f6⟩ :=
    startFinish_spec g1 rng1 gF rng2 hvalid (by rw [p3, hdiscard]) hfin
  refine ⟨f1, f2, ?_⟩
  intro p hp
  rw [f3] at hp
  exact p1 p hp

/-- C6 counterexample: `start()` succeeds on a 2-player game whose first
player was supplied as a live `Player` object already holding one card;
with `initialCards = 1` that player's hand afterwards holds 2 cards, not
`config.initialCards`. -/
theorem c6_counterexample :
    (startR c6cBase 200 c6Rng).isOk = true ∧
    c6cBase.config.initialCards = 1 ∧
    ((lookupPid c6cStarted 50).map fun p => p.hand.cards.length) = some 2 := by
  refine ⟨by decide, by decide, by decide⟩

/-- C6 amended, witnessed on a concrete fresh 2-player game. -/
theorem c6_amended_witness :
    c6wStart.1.discardedCards.cards.length = 1 ∧
    (∀ c ∈ c6wStart.1.discardedCards.cards, validFirstCard c = true) ∧
    (∀ p ∈ c6wStart.1.players, p.hand.cards.length = c6wBase.config.initialCards) := by
  refine c6_amended c6wBase c6wPrep.1 c6wStart.1 0 c6wPrep.2.1 c6Rng c6wPrep.2.2 c6wStart.2
    ?_ (by decide) (by decide) (by decide) (by decide) (by decide) (by decide) (by decide)
    (by decide) (by rfl) (by decide) (by rfl)
  intro e he
  have hlist : c6wBase.initPlayers = [InitEntry.str "A", InitEntry.str "B"] := by rfl
  rw [hlist] at he
  rcases List.mem_cons.mp he with rfl | he2
  · exact ⟨"A", rfl⟩
  · rcases List.mem_cons.mp he2 with rfl | he3
    · exact ⟨"B", rfl⟩
    · cases he3

/-! ## Conservation infrastructure for C9 -/

theorem map_sync_noop (l : List Player) (p : Player) (h : ∀ q ∈ l, q.pid ≠ p.pid) :
    l.map (fun q => if q.pid = p.pid then p else q) = l := by
  have hid : ∀ q ∈ l, (if q.pid = p.pid then p else q) = id q := by
    intro q hq
    simp [h q hq]
  rw [List.map_congr_left hid, List.map_id]

theorem syncPlayer_pids (g : Game) (p : Player) :
    (syncPlayer g p).players.map Player.pid = g.players.map Player.pid := by
  unfold syncPlayer
  simp only [List.map_map]
  apply List.map_congr_left
  intro q _
  by_cases h : q.pid = p.pid <;> simp [h]

theorem nodup_pid_unique (l : List Player) (hnd : (l.map Player.pid).Nodup)
    (q1 q2 : Player) (h1 : q1 ∈ l) (h2 : q2 ∈ l) (hp : q1.pid = q2.pid) : q1 = q2 := by
  induction l with
  | nil => cases h1
  | cons a rest ih =>
    rw [List.map_cons, List.nodup_cons] at hnd
    rcases List.mem_cons.mp h1 with rfl | h1r <;> rcases List.mem_cons.mp h2 with rfl | h2r
    · rfl
    · exact absurd (List.mem_map.mpr ⟨q2, h2r, hp.symm⟩) hnd.1
    · exact absurd (List.mem_map.mpr ⟨q1, h1r, hp⟩) hnd.1
    · exact ih hnd.2 h1r h2r

theorem sum_hands_sync_list : ∀ (l : List Player) (p0 pNew : Player),
    (l.map Player.pid).Nodup → p0 ∈ l → pNew.pid = p0.pid →
    ((l.map fun q => if q.pid = pNew.pid then pNew else q).map fun q => q.hand.cards.length).sum
      + p0.hand.cards.length
      = (l.map fun q => q.hand.cards.length).sum + pNew.hand.cards.length := by
  intro l
  induction l with
  | nil => intro p0 pNew _ hm; cases hm
  | cons q rest ih =>
    intro p0 pNew hnd hm hpid
    rw [List.map_cons, List.nodup_cons] at hnd
    by_cases hq : q.pid = pNew.pid
    · have hp0 : p0 = q := by
        rcases List.mem_cons.mp hm with rfl | hm2
        · rfl
        · exact absurd (List.mem_map.mpr ⟨p0, hm2, (hq.trans hpid).symm⟩) hnd.1
      have hrest : rest.map (fun x => if x.pid = pNew.pid then pNew else x) = rest := by
        apply map_sync_noop
        intro x hx hcon
        exact hnd.1 (List.mem_map.mpr ⟨x, hx, by rw [hcon, hq]⟩)
      simp only [List.map_cons, List.sum_cons, if_pos hq, hrest, hp0]
      omega
    · have hp0r : p0 ∈ rest := by
        rcases List.mem_cons.mp hm with rfl | hm2
        · exact absurd hpid.symm hq
        · exact hm2
      have := ih p0 pNew hnd.2 hp0r hpid
      simp only [List.map_cons, if_neg hq, List.sum_cons]
      omega

theorem totalCards_sync (g : Game) (p0 pNew : Player)
    (hnodup : (g.players.map Player.pid).Nodup)
    (hmem : p0 ∈ g.players) (hpid : pNew.pid = p0.pid) :
    totalCards (syncPlayer g pNew) + p0.hand.cards.length
      = totalCards g + pNew.hand.cards.length := by
  have hsync := sum_hands_sync_list g.players p0 pNew hnodup hmem hpid
  have e1 : totalCards (syncPlayer g pNew)
      = sumDecks g
        + ((g.players.map fun q => if q.pid = pNew.pid then pNew else q).map
            fun q => q.hand.cards.length).sum
        + g.discardedCards.cards.length := rfl
  have e2 : totalCards g
      = sumDecks g + (g.players.map fun q => q.hand.cards.length).sum
        + g.discardedCards.cards.length := rfl
  omega

theorem HandsGrow_of_players_eq (g gNext : Game) (h : gNext.players = g.players) :
    HandsGrow g gNext := by
  intro pid cid ⟨q, hq, hpid, hcid⟩
  exact ⟨q, by rw [h]; exact hq, hpid, hcid⟩

theorem HandsGrow_trans (g1 g2 g3 : Game) (h12 : HandsGrow g1 g2) (h23 : HandsGrow g2 g3) :
    HandsGrow g1 g3 :=
  fun pid cid h => h23 pid cid (h12 pid cid h)

theorem mem_sync_self (g : Game) (p0 pNew : Player)
    (hmem : p0 ∈ g.players) (hpid : pNew.pid = p0.pid) :
    pNew ∈ (syncPlayer g pNew).players := by
  unfold syncPlayer
  simp only
  exact List.mem_map.mpr ⟨p0, hmem, by simp [hpid]⟩

theorem mem_sync_other (g : Game) (q pNew : Player)
    (hmem : q ∈ g.players) (hpid : q.pid ≠ pNew.pid) :
    q ∈ (syncPlayer g pNew).players := by
  unfold syncPlayer
  simp only
  exact List.mem_map.mpr ⟨q, hmem, by simp [hpid]⟩

theorem HandsGrow_sync (g : Game) (p0 pNew : Player)
    (hnodup : (g.players.map Player.pid).Nodup)
    (hmem : p0 ∈ g.players) (hpid : pNew.pid = p0.pid)
    (hgrow : ∀ cid, handHasCid p0 cid → handHasCid pNew cid) :
    HandsGrow g (syncPlayer g pNew) := by
  intro pid cid ⟨q, hq, hqpid, hcid⟩
  by_cases hcase : q.pid = pNew.pid
  · have hq0 : q = p0 := nodup_pid_unique g.players hnodup q p0 hq hmem (hcase.trans hpid)
    exact ⟨pNew, mem_sync_self g p0 pNew hmem hpid, by rw [hpid, ← hq0, hqpid],
      hgrow cid (hq0 ▸ hcid)⟩
  · exact ⟨q, mem_sync_other g q pNew hq hcase, hqpid, hcid⟩

theorem getDeckR_decks_discard (g : Game) (rng : RNG) :
    sumDecks (getDeckR g rng).1 + (getDeckR g rng).1.discardedCards.cards.length
      = sumDecks g + g.discardedCards.cards.length := by
  have ht := getDeckR_totalCards g rng
  have hp := (getDeckR_frame g rng).1
  have e1 : totalCards (getDeckR g rng).1
      = sumDecks (getDeckR g rng).1 + sumHands (getDeckR g rng).1
        + (getDeckR g rng).1.discardedCards.cards.length := rfl
  have e2 : totalCards g = sumDecks g + sumHands g + g.discardedCards.cards.length := rfl
  have e3 : sumHands (getDeckR g rng).1 = sumHands g := by
    rw [sumHands, hp]
    rfl
  omega

theorem handHasCid_addCard (p : Player) (c : Card) (cid : Nat)
    (h : handHasCid p cid) :
    handHasCid { p with hand := p.hand.addCard c } cid := by
  obtain ⟨x, hx, hcid⟩ := h
  exact ⟨x, List.mem_cons_of_mem _ hx, hcid⟩

/-- The draw loop, without any supply assumption: it conserves the cards
split across the decks, the discard pile and the drawing player's
(detached) hand, never touches the players list, and only adds to the
drawing player's hand. -/
theorem drawLoop_conserve : ∀ (k : Nat) (g : Game) (idx : Nat) (p : Player)
    (acc : List Card) (rng : RNG),
    sumDecks (drawLoop g idx p k acc rng).2.2.1
      + (drawLoop g idx p k acc rng).2.2.1.discardedCards.cards.length
      + (drawLoop g idx p k acc rng).2.1.hand.cards.length
      = sumDecks g + g.discardedCards.cards.length + p.hand.cards.length ∧
    (drawLoop g idx p k acc rng).2.2.1.players = g.players ∧
    (drawLoop g idx p k acc rng).2.1.pid = p.pid ∧
    (∀ cid, handHasCid p cid → handHasCid (drawLoop g idx p k acc rng).2.1 cid) := by
  intro k
  induction k with
  | zero =>
    intro g idx p acc rng
    exact ⟨rfl, rfl, rfl, fun cid h => h⟩
  | succ r ih =>
    intro g idx p acc rng
    rw [drawLoop]
    rcases hc : (g.decks.getD idx ⟨[]⟩).cards with _ | ⟨c, rest⟩ <;> dsimp only
    · rcases hgd : getDeckR g rng with ⟨g', idx', rng'⟩
      have hdd := getDeckR_decks_discard g rng
      have hpl := (getDeckR_frame g rng).1
      rw [hgd] at hdd hpl
      dsimp only at hdd hpl
      rcases hcj : (g'.decks.getD idx' ⟨[]⟩).cards with _ | ⟨c2, rest2⟩ <;> dsimp only
      · exact ⟨by omega, hpl, rfl, fun cid h => h⟩
      · have hstep := sumDecks_take_step g' idx' c2 rest2 hcj
        obtain ⟨i1, i2, i3, i4⟩ := ih { g' with decks := g'.decks.set idx' ⟨rest2⟩ } idx'
          { p with hand := p.hand.addCard c2 } (c2 :: acc) rng'
        have hrd : ({ g' with decks := g'.decks.set idx' (⟨rest2⟩ : Deck) } : Game).discardedCards
            = g'.discardedCards := rfl
        rw [hrd] at i1
        have hlen : ({ p with hand := p.hand.addCard c2 } : Player).hand.cards.length
            = p.hand.cards.length + 1 := by
          simp [Deck.addCard]
        refine ⟨?_, i2.trans hpl, i3, ?_⟩
        · omega
        · intro cid h
          exact i4 cid (handHasCid_addCard p c2 cid h)
    · have hstep := sumDecks_take_step g idx c rest hc
      obtain ⟨i1, i2, i3, i4⟩ := ih { g with decks := g.decks.set idx ⟨rest⟩ } idx
        { p with hand := p.hand.addCard c } (c :: acc) rng
      have hrd : ({ g with decks := g.decks.set idx (⟨rest⟩ : Deck) } : Game).discardedCards
          = g.discardedCards := rfl
      rw [hrd] at i1
      have hlen : ({ p with hand := p.hand.addCard c } : Player).hand.cards.length
          = p.hand.cards.length + 1 := by
        simp [Deck.addCard]
      refine ⟨?_, i2, i3, ?_⟩
      · omega
      · intro cid h
        exact i4 cid (handHasCid_addCard p c cid h)

theorem setNextPlayerR_frame (g : Game) (rng : RNG) (t : Game × RNG)
    (h : setNextPlayerR g rng = Except.ok t) :
    totalCards t.1 = totalCards g ∧ t.1.players = g.players := by
  unfold setNextPlayerR at h
  rcases hgn : getNextPlayerR g g.rotation g.currentPlayer rng with e | pr <;> rw [hgn] at h
  · cases h
  · injection h with h
    rw [← h]
    exact ⟨rfl, rfl⟩

theorem syncDrawLoop_effects (g0 g2 : Game) (idx count : Nat) (p : Player) (rng1 : RNG)
    (hnodup : (g0.players.map Player.pid).Nodup)
    (hmem : p ∈ g0.players)
    (hpl2 : g2.players = g0.players)
    (htc2 : totalCards g2 = totalCards g0) :
    totalCards (syncPlayer (drawLoop g2 idx p count [] rng1).2.2.1
      (drawLoop g2 idx p count [] rng1).2.1) = totalCards g0 ∧
    (syncPlayer (drawLoop g2 idx p count [] rng1).2.2.1
      (drawLoop g2 idx p count [] rng1).2.1).players.map Player.pid
      = g0.players.map Player.pid ∧
    HandsGrow g0 (syncPlayer (drawLoop g2 idx p count [] rng1).2.2.1
      (drawLoop g2 idx p count [] rng1).2.1) := by
  obtain ⟨c1, c2pl, c3pid, c4grow⟩ := drawLoop_conserve count g2 idx p [] rng1
  have hplOut : (drawLoop g2 idx p count [] rng1).2.2.1.players = g0.players := c2pl.trans hpl2
  have hmemOut : p ∈ (drawLoop g2 idx p count [] rng1).2.2.1.players := by
    rw [hplOut]
    exact hmem
  have hnodupOut : ((drawLoop g2 idx p count [] rng1).2.2.1.players.map Player.pid).Nodup := by
    rw [hplOut]
    exact hnodup
  have hsync := totalCards_sync (drawLoop g2 idx p count [] rng1).2.2.1 p
    (drawLoop g2 idx p count [] rng1).2.1 hnodupOut hmemOut c3pid
  refine ⟨?_, ?_, ?_⟩
  · have e2 : totalCards (drawLoop g2 idx p count [] rng1).2.2.1
        = sumDecks (drawLoop g2 idx p count [] rng1).2.2.1
          + sumHands (drawLoop g2 idx p count [] rng1).2.2.1
          + (drawLoop g2 idx p count [] rng1).2.2.1.discardedCards.cards.length := rfl
    have e0 : totalCards g2 = sumDecks g2 + sumHands g2 + g2.discardedCards.cards.length := rfl
    have eh : sumHands (drawLoop g2 idx p count [] rng1).2.2.1 = sumHands g2 := by
      rw [sumHands, c2pl]
      rfl
    have e1 : sumDecks (drawLoop g2 idx p count [] rng1).2.2.1
        + (drawLoop g2 idx p count [] rng1).2.2.1.discardedCards.cards.length
        + (drawLoop g2 idx p count [] rng1).2.1.hand.cards.length
        = sumDecks g2 + g2.discardedCards.cards.length + p.hand.cards.length := c1
    omega
  · rw [syncPlayer_pids, hplOut]
  · refine HandsGrow_trans _ _ _
      (HandsGrow_of_players_eq g0 (drawLoop g2 idx p count [] rng1).2.2.1 hplOut) ?_
    exact HandsGrow_sync _ p _ hnodupOut hmemOut c3pid (fun cid h => c4grow cid h)

theorem drawR_effects (g : Game) (p : Player) (n : Int) (a b c d : Bool) (rng : RNG)
    (r : Bool × Player × Game × RNG)
    (hnodup : (g.players.map Player.pid).Nodup)
    (hmem : p ∈ g.players)
    (hok : drawR g p n a b c d rng = Except.ok r) :
    totalCards r.2.2.1 = totalCards g ∧
    r.2.2.1.players.map Player.pid = g.players.map Player.pid ∧
    HandsGrow g r.2.2.1 := by
  unfold drawR at hok
  split at hok
  · cases hok
  · split at hok
    · injection hok with hok
      rw [← hok]
      exact ⟨rfl, rfl, HandsGrow_of_players_eq _ _ rfl⟩
    · dsimp only at hok
      have hG1total : totalCards (getDeckR g rng).1 = totalCards g := getDeckR_totalCards g rng
      have hG1pl : (getDeckR g rng).1.players = g.players := (getDeckR_frame g rng).1
      by_cases hsd : ((getDeckR g rng).1.state == "STACK_DRAW") = true
      · rw [if_pos hsd] at hok
        dsimp only at hok
        obtain ⟨t1, t2, t3⟩ := syncDrawLoop_effects g
          { (getDeckR g rng).1 with stackDrawAmount := 0, state := "PLAYING" }
          (getDeckR g rng).2.1 (getDeckR g rng).1.stackDrawAmount p (getDeckR g rng).2.2
          hnodup hmem (by rw [show ({ (getDeckR g rng).1 with stackDrawAmount := 0, state := "PLAYING" } : Game).players = (getDeckR g rng).1.players from rfl, hG1pl])
          (by rw [show totalCards { (getDeckR g rng).1 with stackDrawAmount := 0, state := "PLAYING" } = totalCards (getDeckR g rng).1 from rfl, hG1total])
        split at hok
        · split at hok
          · cases hok
          · next t heq =>
              injection hok with hok
              rw [← hok]
              obtain ⟨s1, s2⟩ := setNextPlayerR_frame _ _ _ heq
              exact ⟨s1.trans t1, by dsimp only; rw [s2]; exact t2,
                HandsGrow_trans _ _ _ t3 (HandsGrow_of_players_eq _ _ s2)⟩
        · injection hok with hok
          rw [← hok]
          exact ⟨t1, t2, t3⟩
      · rw [if_neg hsd] at hok
        dsimp only at hok
        obtain ⟨t1, t2, t3⟩ := syncDrawLoop_effects g (getDeckR g rng).1
          (getDeckR g rng).2.1 n.toNat p (getDeckR g rng).2.2
          hnodup hmem hG1pl hG1total
        split at hok
        · split at hok
          · cases hok
          · next t heq =>
              injection hok with hok
              rw [← hok]
              obtain ⟨s1, s2⟩ := setNextPlayerR_frame _ _ _ heq
              exact ⟨s1.trans t1, by dsimp only; rw [s2]; exact t2,
                HandsGrow_trans _ _ _ t3 (HandsGrow_of_players_eq _ _ s2)⟩
        · injection hok with hok
          rw [← hok]
          exact ⟨t1, t2, t3⟩

theorem handHasCid_iff (q : Player) (cid : Nat) :
    handHasCid q cid ↔ cid ∈ q.hand.cards.map Card.cid := by
  simp [handHasCid, List.mem_map]

theorem map_cid_set_same : ∀ (l : List Card) (i : Nat) (c c' : Card),
    l.get? i = some c → c'.cid = c.cid →
    (l.set i c').map Card.cid = l.map Card.cid := by
  intro l
  induction l with
  | nil => intro i c c' h _; cases h
  | cons a rest ih =>
    intro i c c' h hc
    cases i with
    | zero =>
      rw [List.get?_cons_zero] at h
      injection h with h
      simp [List.set, hc, h]
    | succ n =>
      rw [List.get?_cons_succ] at h
      simp [List.set, ih n c c' h hc]

theorem getCard_snd_cids (d : Deck) (color : Option Color) (value : Option Value) :
    (Deck.getCard d color value).2.cards.map Card.cid = d.cards.map Card.cid := by
  unfold Deck.getCard
  split
  · rfl
  · dsimp only
    split
    · rfl
    · next i hfind =>
      split
      · rfl
      · next c hget =>
        split
        · dsimp only
          exact map_cid_set_same d.cards i c _ hget rfl
        · rfl

theorem getCard_snd_length (d : Deck) (color : Option Color) (value : Option Value) :
    (Deck.getCard d color value).2.cards.length = d.cards.length := by
  have h := congrArg List.length (getCard_snd_cids d color value)
  simpa using h

theorem getRandomFromArr_mem (arr : List Player) (rng : RNG) (q : Player)
    (h : (getRandomFromArr arr rng).1 = some q) : q ∈ arr := by
  unfold getRandomFromArr at h
  split at h
  · cases h
  · dsimp only at h
    exact List.get?_mem h

theorem opt_if_get_mem (c : Prop) (inst : Decidable c) (l : List Player) (n : Nat) (np : Player)
    (h : (if c then none else l.get? n) = some np) : np ∈ l := by
  split at h
  · cases h
  · exact List.get?_mem h

theorem getNextPlayerR_mem (g : Game) (rot : String) (cp : Option Player) (rng : RNG)
    (pr : Option Player × RNG) (np : Player)
    (h : getNextPlayerR g rot cp rng = Except.ok pr) (h2 : pr.1 = some np) :
    np ∈ g.players := by
  unfold getNextPlayerR at h
  split at h
  · cases h
  · rcases cp with _ | c
    · dsimp only at h
      injection h with h
      rw [← h] at h2
      exact getRandomFromArr_mem g.players rng np h2
    · dsimp only at h
      injection h with h
      rw [← h] at h2
      dsimp only at h2
      exact opt_if_get_mem _ _ g.players _ np h2

theorem nextPlayerOf_mem (g : Game) (rng : RNG) (t : Player × RNG)
    (h : nextPlayerOf g rng = Except.ok t) : t.1 ∈ g.players := by
  unfold nextPlayerOf at h
  split at h
  · cases h
  · cases h
  · next np rng2 heq =>
      injection h with h
      rw [← h]
      exact getNextPlayerR_mem g g.rotation g.currentPlayer rng _ np heq rfl

theorem stackElseBranch_effects (g : Game) (amount : Nat) (rng : RNG) (t : Game × RNG)
    (hnodup : (g.players.map Player.pid).Nodup)
    (hok : stackElseBranch g amount rng = Except.ok t) :
    totalCards t.1 = totalCards g ∧
    t.1.players.map Player.pid = g.players.map Player.pid ∧
    HandsGrow g t.1 := by
  unfold stackElseBranch at hok
  split at hok
  · dsimp only at hok
    rcases hnp : nextPlayerOf { g with stackDrawAmount := g.stackDrawAmount + amount } rng
      with _ | ⟨np, rng1⟩
    · rw [hnp] at hok
      dsimp only at hok
      cases hok
    · rw [hnp] at hok
      dsimp only at hok
      rcases hdr : drawR { g with stackDrawAmount := g.stackDrawAmount + amount } np
          (Int.ofNat (g.stackDrawAmount + amount)) true false true true rng1
        with _ | ⟨bq, pq, g2, rng2⟩
      · rw [hdr] at hok
        dsimp only at hok
        cases hok
      · rw [hdr] at hok
        dsimp only at hok
        obtain ⟨e1, e2, e3⟩ := drawR_effects
          { g with stackDrawAmount := g.stackDrawAmount + amount } np
          (Int.ofNat (g.stackDrawAmount + amount)) true false true true rng1
          (bq, pq, g2, rng2) hnodup
          (nextPlayerOf_mem { g with stackDrawAmount := g.stackDrawAmount + amount } rng
            (np, rng1) hnp) hdr
        injection hok with hok
        rw [← hok]
        exact ⟨e1, e2, e3⟩
  · rcases hnp : nextPlayerOf g rng with _ | ⟨np, rng1⟩
    · rw [hnp] at hok
      dsimp only at hok
      cases hok
    · rw [hnp] at hok
      dsimp only at hok
      rcases hdr : drawR g np (Int.ofNat amount) true false true true rng1
        with _ | ⟨bq, pq, g2, rng2⟩
      · rw [hdr] at hok
        dsimp only at hok
        cases hok
      · rw [hdr] at hok
        dsimp only at hok
        obtain ⟨e1, e2, e3⟩ := drawR_effects g np (Int.ofNat amount) true false true true rng1
          (bq, pq, g2, rng2) hnodup (nextPlayerOf_mem g rng (np, rng1) hnp) hdr
        injection hok with hok
        rw [← hok]
        exact ⟨e1, e2, e3⟩

theorem drawCardCase_effects (g : Game) (amount : Nat) (stackValue : Value) (rng : RNG)
    (t : Game × RNG)
    (hnodup : (g.players.map Player.pid).Nodup)
    (hok : drawCardCase g amount stackValue rng = Except.ok t) :
    totalCards t.1 = totalCards g ∧
    t.1.players.map Player.pid = g.players.map Player.pid ∧
    HandsGrow g t.1 := by
  unfold drawCardCase at hok
  split at hok
  · rcases hnp : nextPlayerOf g rng with _ | ⟨np, rng1⟩
    · rw [hnp] at hok
      dsimp only at hok
      cases hok
    · rw [hnp] at hok
      dsimp only at hok
      have hmemnp : np ∈ g.players := nextPlayerOf_mem g rng (np, rng1) hnp
      have hlen : ({ np with hand := (Deck.getCard np.hand none (some stackValue)).2 } :
          Player).hand.cards.length = np.hand.cards.length :=
        getCard_snd_length np.hand none (some stackValue)
      have hsync := totalCards_sync g np
        { np with hand := (Deck.getCard np.hand none (some stackValue)).2 } hnodup hmemnp rfl
      have htS : totalCards (syncPlayer g
          { np with hand := (Deck.getCard np.hand none (some stackValue)).2 }) = totalCards g := by
        omega
      have hpids : (syncPlayer g
            { np with hand := (Deck.getCard np.hand none (some stackValue)).2 }).players.map
          Player.pid = g.players.map Player.pid :=
        syncPlayer_pids g _
      have hgrow : HandsGrow g (syncPlayer g
          { np with hand := (Deck.getCard np.hand none (some stackValue)).2 }) := by
        refine HandsGrow_sync g np _ hnodup hmemnp rfl ?_
        intro cid h
        rw [handHasCid_iff] at h ⊢
        have hc := getCard_snd_cids np.hand none (some stackValue)
        simpa [hc] using h
      split at hok
      · injection hok with hok
        rw [← hok]
        exact ⟨htS, hpids, hgrow⟩
      · obtain ⟨e1, e2, e3⟩ := stackElseBranch_effects
          (syncPlayer g { np with hand := (Deck.getCard np.hand none (some stackValue)).2 })
          amount rng1 t (by rw [hpids]; exact hnodup) hok
        exact ⟨e1.trans htS, e2.trans hpids, HandsGrow_trans _ _ _ hgrow e3⟩
  · exact stackElseBranch_effects g amount rng t hnodup hok

theorem gameLogicR_effects (g : Game) (card : Card) (rng : RNG) (t : Game × RNG)
    (hnodup : (g.players.map Player.pid).Nodup)
    (hok : gameLogicR g card rng = Except.ok t) :
    totalCards t.1 = totalCards g ∧
    t.1.players.map Player.pid = g.players.map Player.pid ∧
    HandsGrow g t.1 := by
  unfold gameLogicR at hok
  split at hok
  · dsimp only at hok
    split at hok
    · obtain ⟨e1, e2⟩ := setNextPlayerR_frame (flipDirection g) rng t hok
      refine ⟨e1, ?_, ?_⟩
      · rw [e2]
        rfl
      · refine HandsGrow_of_players_eq g t.1 ?_
        rw [e2]
        rfl
    · injection hok with hok
      rw [← hok]
      exact ⟨rfl, rfl, HandsGrow_of_players_eq _ _ rfl⟩
  · obtain ⟨e1, e2⟩ := setNextPlayerR_frame g rng t hok
    exact ⟨e1, by rw [e2], HandsGrow_of_players_eq g t.1 e2⟩
  · exact drawCardCase_effects g 2 Value.DRAW_TWO rng t hnodup hok
  · exact drawCardCase_effects g 4 Value.WILD_DRAW_FOUR rng t hnodup hok
  · injection hok with hok
    rw [← hok]
    exact ⟨rfl, rfl, HandsGrow_of_players_eq _ _ rfl⟩

theorem lookupPid_found (g : Game) (pid : Nat) (q : Player)
    (hq : q ∈ g.players) (hpid : q.pid = pid)
    (hnodup : (g.players.map Player.pid).Nodup) :
    lookupPid g pid = some q := by
  unfold lookupPid
  rcases hf : g.players.find? (fun x => x.pid = pid) with _ | q0
  · exfalso
    rw [List.find?_eq_none] at hf
    have hcon := hf q hq
    simp [hpid] at hcon
  · have hq0mem := List.mem_of_find?_eq_some hf
    have hq0pid : q0.pid = pid := by
      have h2 := List.find?_some hf
      simpa using h2
    have heq : q0 = q := nodup_pid_unique g.players hnodup q0 q hq0mem hq (hq0pid.trans hpid.symm)
    rw [hf, heq]

theorem removeCard_length_of_hit (d : Deck) (card : Card)
    (hany : d.cards.any (removeMatches card) = true) :
    (Deck.removeCard d card).2.cards.length + 1 = d.cards.length := by
  have hne : d.cards ≠ [] := by
    intro hnil
    rw [hnil] at hany
    cases hany
  have hfst : (removeFirst card d.cards).1 = true := by
    rw [removeFirst_fst_eq_any]
    exact hany
  have hlen := removeFirst_length card d.cards
  rw [hfst, if_pos rfl] at hlen
  have hrc : (Deck.removeCard d card).2.cards.length
      = (removeFirst card d.cards).2.length := by
    rw [removeCard_eq_removeFirst]
  have hpos : 1 ≤ d.cards.length := by
    rcases hc : d.cards with _ | ⟨x, xs⟩
    · exact absurd hc hne
    · simp [hc]
  omega

theorem playR_effects (g : Game) (player : Player) (card : Card) (rng : RNG)
    (r : Bool × Game × RNG)
    (hnodup : (g.players.map Player.pid).Nodup)
    (hmem : player ∈ g.players)
    (hok : playR g player card rng = Except.ok r) :
    totalCards r.2.1 = totalCards g ∧
    r.2.1.players.map Player.pid = g.players.map Player.pid := by
  unfold playR at hok
  dsimp only at hok
  by_cases hv : (handIncludes player card && isCurrent g player &&
      Card.isValidOn card (Deck.getTopCard? g.discardedCards) true
        (g.config.stackCards && g.state == "STACK_DRAW")) = true
  · rw [if_pos hv] at hok
    have hv2 := hv
    simp only [Bool.and_eq_true] at hv2
    obtain ⟨⟨hinc, hcur⟩, hvalid⟩ := hv2
    set card1 := (if card.wild = true
        then { card with color := card.wildPickedColor.getD card.color } else card)
      with hcard1
    set player1 := ({ player with
        hand := (⟨player.hand.cards.map fun c => if c.cid = card1.cid then card1 else c⟩ : Deck) } :
        Player) with hplayer1
    have hcid1 : card1.cid = card.cid := by
      rw [hcard1]
      by_cases hw : card.wild = true <;> simp [hw]
    have hpid1 : player1.pid = player.pid := by rw [hplayer1]
    have hlen1 : player1.hand.cards.length = player.hand.cards.length := by
      rw [hplayer1]
      simp
    have hsync1 := totalCards_sync g player player1 hnodup hmem hpid1
    have htg1 : totalCards (syncPlayer g player1) = totalCards g := by omega
    have hpids1 : (syncPlayer g player1).players.map Player.pid = g.players.map Player.pid :=
      syncPlayer_pids g player1
    have hnodup1 : ((syncPlayer g player1).players.map Player.pid).Nodup := by
      rw [hpids1]
      exact hnodup
    have hmem1 : player1 ∈ (syncPlayer g player1).players :=
      mem_sync_self g player player1 hmem hpid1
    have hhand1 : handHasCid player1 card1.cid := by
      unfold handIncludes at hinc
      obtain ⟨c0, hc0mem, hc0⟩ := List.any_eq_true.mp hinc
      have hc0cid : c0.cid = card.cid := by simpa using hc0
      refine ⟨card1, ?_, rfl⟩
      rw [hplayer1]
      exact List.mem_map.mpr ⟨c0, hc0mem, by simp [hc0cid, hcid1]⟩
    rcases hgl : gameLogicR (syncPlayer g player1) card1 rng with _ | ⟨g2, rng2⟩
    · rw [hgl] at hok
      dsimp only at hok
      cases hok
    · rw [hgl] at hok
      dsimp only at hok
      obtain ⟨eT2, eP2, eHG⟩ := gameLogicR_effects (syncPlayer g player1) card1 rng
        (g2, rng2) hnodup1 hgl
      have eT2h : totalCards g2 = totalCards (syncPlayer g player1) := eT2
      have eP2h : g2.players.map Player.pid = (syncPlayer g player1).players.map Player.pid := eP2
      have hnodup2 : (g2.players.map Player.pid).Nodup := by
        rw [eP2h, hpids1]
        exact hnodup
      obtain ⟨q, hqmem0, hqpid, hqcid⟩ := eHG player.pid card1.cid ⟨player1, hmem1, hpid1, hhand1⟩
      have hqmem : q ∈ g2.players := hqmem0
      have hlook : lookupPid g2 player1.pid = some q := by
        rw [hpid1]
        exact lookupPid_found g2 player.pid q hqmem hqpid hnodup2
      rw [hlook] at hok
      simp only [Option.getD_some] at hok
      set player3 := ({ q with hand := (Deck.removeCard q.hand card1).2 } : Player) with hplayer3
      set g4 := ({ syncPlayer g2 player3 with
          discardedCards := Deck.addCard (syncPlayer g2 player3).discardedCards card1 } : Game)
        with hg4
      have hany : q.hand.cards.any (removeMatches card1) = true := by
        obtain ⟨cx, hcx, hcidx⟩ := hqcid
        exact List.any_eq_true.mpr ⟨cx, hcx, by simp [removeMatches, hcidx]⟩
      have hrem := removeCard_length_of_hit q.hand card1 hany
      have hlen3 : player3.hand.cards.length + 1 = q.hand.cards.length := by
        rw [hplayer3]
        exact hrem
      have hsync3 := totalCards_sync g2 q player3 hnodup2 hqmem (by rw [hplayer3])
      have htg3 : totalCards (syncPlayer g2 player3) + 1 = totalCards g2 := by omega
      have hpids3 : (syncPlayer g2 player3).players.map Player.pid
          = g2.players.map Player.pid := syncPlayer_pids g2 player3
      have htg4 : totalCards g4 = totalCards (syncPlayer g2 player3) + 1 := by
        rw [hg4]
        rfl
      have hpids4 : g4.players.map Player.pid
          = (syncPlayer g2 player3).players.map Player.pid := by
        rw [hg4]
      rcases hgn : getNextPlayerR g4 g4.rotation g4.currentPlayer rng2 with _ | ⟨onp, rng3⟩
      · rw [hgn] at hok
        dsimp only at hok
        cases hok
      · rw [hgn] at hok
        dsimp only at hok
        rcases hsn : setNextPlayerR g4 rng3 with _ | ⟨g5, rng4⟩
        · rw [hsn] at hok
          dsimp only at hok
          cases hok
        · rw [hsn] at hok
          dsimp only at hok
          injection hok with hok
          rw [← hok]
          obtain ⟨f1, f2⟩ := setNextPlayerR_frame g4 rng3 (g5, rng4) hsn
          have f1h : totalCards g5 = totalCards g4 := f1
          have f2h : g5.players = g4.players := f2
          refine ⟨?_, ?_⟩
          · show totalCards g5 = totalCards g
            omega
          · show g5.players.map Player.pid = g.players.map Player.pid
            rw [f2h, hpids4, hpids3, eP2h, hpids1]
  · rw [if_neg hv] at hok
    injection hok with hok
    rw [← hok]
    exact ⟨rfl, rfl⟩

theorem getRandomCard_some_mem (arr : List Card) (rng : RNG) (c : Card)
    (h : (getRandomCard arr rng).1 = some c) : c ∈ arr := by
  unfold getRandomCard at h
  split at h
  · cases h
  · dsimp only at h
    exact List.get?_mem h

theorem getDeckR_idx_lt (g : Game) (rng : RNG) :
    (getDeckR g rng).2.1 < (getDeckR g rng).1.decks.length := by
  unfold getDeckR
  rcases hf : g.decks.findIdx? (fun d => !d.cards.isEmpty) with _ | i <;> rw [hf]
  · simp
  · dsimp only
    exact (nonempty_of_findIdx?_some g.decks i hf).1

theorem startFinish_totalCards (g : Game) (rng : RNG) (gF : Game) (rng2 : RNG)
    (hfin : startFinish g rng = Except.ok (gF, rng2)) :
    totalCards gF = totalCards g := by
  have htot := getDeckR_totalCards g rng
  unfold startFinish at hfin
  dsimp only at hfin
  rcases hpick : (getRandomCard
      (((getDeckR g rng).1.decks.getD (getDeckR g rng).2.1 ⟨[]⟩).cards.filter validFirstCard)
      (getDeckR g rng).2.2).1 with _ | c
  · rw [hpick] at hfin
    dsimp only at hfin
    rcases hdc : ((getDeckR g rng).1.decks.getD (getDeckR g rng).2.1 ⟨[]⟩).cards
      with _ | ⟨x, xs⟩
    · rw [hdc] at hfin
      dsimp only at hfin
      injection hfin with hfin
      rw [Prod.mk.injEq] at hfin
      obtain ⟨hA, _⟩ := hfin
      rw [← hA]
      exact htot
    · rw [hdc] at hfin
      cases hfin
  · rw [hpick] at hfin
    dsimp only at hfin
    injection hfin with hfin
    rw [Prod.mk.injEq] at hfin
    obtain ⟨hA, _⟩ := hfin
    rw [← hA]
    have hmemf := getRandomCard_some_mem _ _ _ hpick
    have hmemc : c ∈ ((getDeckR g rng).1.decks.getD (getDeckR g rng).2.1 ⟨[]⟩).cards :=
      (List.mem_filter.mp hmemf).1
    have hany : ((getDeckR g rng).1.decks.getD (getDeckR g rng).2.1 ⟨[]⟩).cards.any
        (removeMatches c) = true := by
      rw [List.any_eq_true]
      exact ⟨c, hmemc, by simp [removeMatches]⟩
    have hrem := removeCard_length_of_hit
      ((getDeckR g rng).1.decks.getD (getDeckR g rng).2.1 ⟨[]⟩) c hany
    have hlt := getDeckR_idx_lt g rng
    have hset := sum_set_deck (getDeckR g rng).1.decks (getDeckR g rng).2.1
      (((getDeckR g rng).1.decks.getD (getDeckR g rng).2.1 ⟨[]⟩).removeCard c).2 hlt
    have e1 : totalCards g
        = sumDecks g + sumHands g + g.discardedCards.cards.length := rfl
    have e2 : totalCards (getDeckR g rng).1
        = sumDecks (getDeckR g rng).1 + sumHands (getDeckR g rng).1
          + (getDeckR g rng).1.discardedCards.cards.length := rfl
    have e3 : totalCards { (getDeckR g rng).1 with
          discardedCards := Deck.addCard (getDeckR g rng).1.discardedCards c,
          decks := (getDeckR g rng).1.decks.set (getDeckR g rng).2.1
            (((getDeckR g rng).1.decks.getD (getDeckR g rng).2.1 ⟨[]⟩).removeCard c).2,
          state := "PLAYING" }
        = (((getDeckR g rng).1.decks.set (getDeckR g rng).2.1
              (((getDeckR g rng).1.decks.getD (getDeckR g rng).2.1 ⟨[]⟩).removeCard c).2).map
            fun x => x.cards.length).sum
          + sumHands (getDeckR g rng).1
          + ((getDeckR g rng).1.discardedCards.cards.length + 1) := rfl
    rw [show sumDecks (getDeckR g rng).1
        = ((getDeckR g rng).1.decks.map fun x => x.cards.length).sum from rfl] at e2
    show totalCards { (getDeckR g rng).1 with
          discardedCards := Deck.addCard (getDeckR g rng).1.discardedCards c,
          decks := (getDeckR g rng).1.decks.set (getDeckR g rng).2.1
            (((getDeckR g rng).1.decks.getD (getDeckR g rng).2.1 ⟨[]⟩).removeCard c).2,
          state := "PLAYING" } = totalCards g
    omega

/-! ## C9 — the card-total invariant -/

theorem startR_total (g gF : Game) (fresh : Nat) (rng rng2 : RNG)
    (hstr : ∀ e ∈ g.initPlayers, ∃ s, e = InitEntry.str s)
    (hic : 1 ≤ g.config.initialCards)
    (hn : 2 ≤ g.initPlayers.length)
    (hdecks : g.decks = [])
    (hplayers : g.players = [])
    (hdiscard : g.discardedCards.cards = [])
    (hstate : g.state = "NOT_STARTED")
    (hcp : g.currentPlayer = none)
    (hsupply : g.initPlayers.length * g.config.initialCards ≤
       108 * ((g.initPlayers.length + g.config.playersPerDeck - 1) / g.config.playersPerDeck))
    (hstart : startR g fresh rng = Except.ok (gF, rng2)) :
    totalCards gF =
      108 * ((g.initPlayers.length + g.config.playersPerDeck - 1) / g.config.playersPerDeck) := by
  unfold startR at hstart
  rcases hprep : startPrep g fresh rng with _ | ⟨g1, fresh1, rng1⟩
  · rw [hprep] at hstart
    dsimp only at hstart
    cases hstart
  · rw [hprep] at hstart
    dsimp only at hstart
    obtain ⟨p1, p2, p3, p4, p5, p6⟩ := startPrep_spec g fresh rng g1 fresh1 rng1
      hstr hic hn hdecks hplayers hstate hcp hsupply hprep
    have hfin := startFinish_totalCards g1 rng1 gF rng2 hstart
    have hh : sumHands g1 = g1.players.length * g.config.initialCards := by
      rw [sumHands]
      exact sum_hands_const g1.players g.config.initialCards p1
    have hd1 : g1.discardedCards.cards.length = 0 := by
      rw [p3, hdiscard]
      rfl
    have e1 : totalCards g1 = sumDecks g1 + sumHands g1 + g1.discardedCards.cards.length := rfl
    rw [p2] at hh
    omega

/-- C9 (amended): in a running game the card total over draw decks, hands
and discard pile is preserved by the internal deck reshuffle, by every
successful `draw` and by every successful `play` (for a game whose players
carry distinct identities and a drawing/playing player taken from the
game); and when `start()` succeeds on a fresh game whose initial players
are all given as names, the total equals 108 times the number of physical
decks built at start.  (A player pre-supplied as a live `Player` object
keeps its pre-held cards, so such games start above that figure.) -/
theorem c9_amended :
    (∀ (g : Game) (rng : RNG), totalCards (getDeckR g rng).1 = totalCards g) ∧
    (∀ (g : Game) (p : Player) (n : Int) (a b c d : Bool) (rng : RNG)
        (r : Bool × Player × Game × RNG),
        (g.players.map Player.pid).Nodup → p ∈ g.players →
        drawR g p n a b c d rng = Except.ok r →
        totalCards r.2.2.1 = totalCards g) ∧
    (∀ (g : Game) (p : Player) (card : Card) (rng : RNG) (r : Bool × Game × RNG),
        (g.players.map Player.pid).Nodup → p ∈ g.players →
        playR g p card rng = Except.ok r →
        totalCards r.2.1 = totalCards g) ∧
    (∀ (g gF : Game) (fresh : Nat) (rng rng2 : RNG),
        (∀ e ∈ g.initPlayers, ∃ s, e = InitEntry.str s) →
        1 ≤ g.config.initialCards →
        2 ≤ g.initPlayers.length →
        g.decks = [] → g.players = [] → g.discardedCards.cards = [] →
        g.state = "NOT_STARTED" → g.currentPlayer = none →
        g.initPlayers.length * g.config.initialCards ≤
          108 * ((g.initPlayers.length + g.config.playersPerDeck - 1) /
            g.config.playersPerDeck) →
        startR g fresh rng = Except.ok (gF, rng2) →
        totalCards gF =
          108 * ((g.initPlayers.length + g.config.playersPerDeck - 1) /
            g.config.playersPerDeck)) := by
  refine ⟨getDeckR_totalCards, ?_, ?_, ?_⟩
  · intro g p n a b c d rng r hnodup hmem hok
    exact (drawR_effects g p n a b c d rng r hnodup hmem hok).1
  · intro g p card rng r hnodup hmem hok
    exact (playR_effects g p card rng r hnodup hmem hok).1
  · intro g gF fresh rng rng2 hstr hic hn hdecks hplayers hdiscard hstate hcp hsupply hstart
    exact startR_total g gF fresh rng rng2 hstr hic hn hdecks hplayers hdiscard hstate hcp
      hsupply hstart

/-- C9 amended, witnessed: the concrete fresh 2-player game started with
two name entries ends `start()` with exactly 108 cards in play. -/
theorem c9_amended_witness : totalCards c6wStart.1 = 108 := by
  have h := c9_amended.2.2.2 c6wBase c6wStart.1 0 c6Rng c6wStart.2
    (by
      intro e he
      have hlist : c6wBase.initPlayers = [InitEntry.str "A", InitEntry.str "B"] := by rfl
      rw [hlist] at he
      rcases List.mem_cons.mp he with rfl | he2
      · exact ⟨"A", rfl⟩
      · rcases List.mem_cons.mp he2 with rfl | he3
        · exact ⟨"B", rfl⟩
        · cases he3)
    (by decide) (by decide) (by decide) (by decide) (by decide) (by decide) (by decide)
    (by decide) (by rfl)
  exact h.trans (by decide)

/-- C9 counterexample: `start()` succeeds on a 2-player game whose first
player was supplied as a live `Player` object already holding a card; the
started game holds 109 cards across its single built deck, the hands and
the discard pile — not 108 × 1. -/
theorem c9_counterexample :
    (startR c6cBase 200 c6Rng).isOk = true ∧
    c6cStarted.decks.length = 1 ∧
    totalCards c6cStarted = 109 :=
  ⟨by decide, by decide, by decide⟩

/-! ## C1 — toJSON/fromJSON round trip -/

/-- C1: the round trip preserves rotation, state, the players' ids, names
and hand payloads, the decks and the discard pile — but `fromJSON` installs
the serialized `currentPlayer` reference as-is, so the current player is
not an element of the reconstructed players list (identities 1105/1107
versus the original object 108), and resuming play diverges: the very same
draw by the current player advances the turn to B (id 1) in the original
game but to the clone of A itself (id 0) in the round-tripped game, because
`indexOf(currentPlayer)` is -1 there. -/
theorem c1_roundtrip_currentPlayer_bug :
    Game.fromJSON (Game.toJSON c1Started) c1Cfg 1000 = Except.ok c1RT ∧
    c1Started.state = "PLAYING" ∧
    c1RT.rotation = c1Started.rotation ∧
    c1RT.state = c1Started.state ∧
    (c1RT.players.map fun p => (p.id, p.name, p.hand.toJSON)) =
      (c1Started.players.map fun p => (p.id, p.name, p.hand.toJSON)) ∧
    (c1RT.decks.map Deck.toJSON) = (c1Started.decks.map Deck.toJSON) ∧
    c1RT.discardedCards.toJSON = c1Started.discardedCards.toJSON ∧
    c1Started.currentPlayer = some c1Cur ∧
    c1RT.currentPlayer = some c1Cur ∧
    c1Cur.pid ∈ c1Started.players.map Player.pid ∧
    c1Cur.pid ∉ c1RT.players.map Player.pid ∧
    ((drawR c1Started c1Cur 1 true false false false []).map fun r =>
      r.2.2.1.currentPlayer.map Player.id) = Except.ok (some 1) ∧
    ((drawR c1RT c1Cur 1 true false false false []).map fun r =>
      r.2.2.1.currentPlayer.map Player.id) = Except.ok (some 0) := by
  refine ⟨by decide, by decide, by decide, by decide, by decide, by decide, by decide,
    by decide, by decide, by decide, by decide, by decide, by decide⟩

/-! ## C4 — Deck.removeCard -/

/-- C4 counterexample: the card object `c4second` (identity 11) is in the
deck, yet `removeCard c4second` removes the earlier color+value twin
(identity 10) and leaves the very object that was passed — there is no
identity-first precedence. -/
theorem c4_counterexample :
    (c4deck.cards.any fun x => x.cid = c4second.cid) = true ∧
    (c4deck.removeCard c4second).1 = true ∧
    ((c4deck.removeCard c4second).2.cards.map Card.cid) = [11] := by decide

/-- C4 amended: `removeCard` removes the first card (in deck order)
matching the identity-or-(color,value) disjunction, with no precedence for
identity; it returns true iff such a card exists, and leaves the deck
unchanged otherwise. -/
theorem c4_amended (d : Deck) (c : Card) :
    ((d.removeCard c).1 = d.cards.any (removeMatches c)) ∧
    ((d.removeCard c).1 = false → (d.removeCard c).2 = d) ∧
    (∀ pre x post, d.cards = pre ++ x :: post → removeMatches c x = true →
      (∀ y ∈ pre, removeMatches c y = false) →
      (d.removeCard c).2.cards = pre ++ post) := by
  refine ⟨?_, ?_, ?_⟩
  · rw [removeCard_eq_removeFirst, removeFirst_fst_eq_any]
  · intro h
    rw [removeCard_eq_removeFirst] at h ⊢
    have : ∀ y ∈ d.cards, removeMatches c y = false := by
      intro y hy
      by_contra hy'
      have hany : d.cards.any (removeMatches c) = true :=
        List.any_eq_true.mpr ⟨y, hy, by revert hy'; cases removeMatches c y <;> simp⟩
      rw [removeFirst_fst_eq_any, hany] at h
      cases h
    simp [removeFirst_not_found c d.cards this]
  · intro pre x post hsplit hx hpre
    rw [removeCard_eq_removeFirst, hsplit, removeFirst_found c x pre post hx hpre]

/-- C4 amended, witnessed at a concrete input: a deck `[twin, target]`
where the first match is the twin. -/
theorem c4_amended_witness :
    ((c4deck.removeCard c4second).1 = c4deck.cards.any (removeMatches c4second)) ∧
    (c4deck.removeCard c4second).2.cards = [] ++ [c4second] := by
  have h := c4_amended c4deck c4second
  exact ⟨h.1, h.2.2 [] c4first [c4second] (by decide) (by decide) (by decide)⟩

/-! ## C7 — stacking predicate -/

/-- C7: while stacking, a card is valid iff it is DRAW_TWO or
WILD_DRAW_FOUR and the top card carries the same value symbol; in
particular a WILD_DRAW_FOUR is never valid atop a DRAW_TWO while stacking,
and any card of another value is invalid while stacking. -/
theorem c7_stacking_iff (c t : Card) (toPlay : Bool) :
    c.isValidOn (some t) toPlay true = true ↔
    ((c.value = Value.DRAW_TWO ∨ c.value = Value.WILD_DRAW_FOUR) ∧ t.value = c.value) := by
  cases hv : c.value <;> simp [Card.isValidOn, hv, eq_comm]

/-! ## C8 — unresolved wild cards -/

/-- C8 counterexample: with a wild top card, a BLACK-picked wild card is
not even display-valid (`toPlay=false` yields false, the claim says every
non-null top card yields true): the wild-on-wild rule precedes the
display rule. -/
theorem c8_counterexample :
    wildPickedBlack.wild = true ∧
    wildPickedBlack.wildPickedColor = some Color.BLACK ∧
    wildTop.wild = true ∧
    wildPickedBlack.isValidOn (some wildTop) false false = false := by decide

/-- C8 amended: a wild card with `wildPickedColor` still BLACK is invalid
to commit against every non-null top card; it is valid to merely display
against every non-wild top card, but invalid to display against a wild top
card (wild-on-wild precedes the display rule). -/
theorem c8_amended (c t : Card) (hw : c.wild = true)
    (hp : c.wildPickedColor = some Color.BLACK) :
    c.isValidOn (some t) true false = false ∧
    (t.wild = false → c.isValidOn (some t) false false = true) ∧
    (t.wild = true → c.isValidOn (some t) false false = false) := by
  refine ⟨?_, fun ht => ?_, fun ht => ?_⟩ <;>
    cases htw : t.wild <;> simp_all [Card.isValidOn]

/-- C8 amended, witnessed at concrete inputs. -/
theorem c8_amended_witness :
    wildPickedBlack.isValidOn (some redFive) true false = false ∧
    (redFive.wild = false → wildPickedBlack.isValidOn (some redFive) false false = true) ∧
    (redFive.wild = true → wildPickedBlack.isValidOn (some redFive) false false = false) :=
  c8_amended wildPickedBlack redFive (by decide) (by decide)

/-! ## C10 — getCard's wildPickedColor overwrite -/

/-- C10: whenever `Deck.getCard` finds a wild card, it overwrites that
card's `wildPickedColor` with the color argument exactly as passed —
including `none` (`undefined`) when no color was supplied, as the engine's
stackability lookup `getCard(undefined, WILD_DRAW_FOUR)` does — the updated
object stays in the deck, and a wild card whose `wildPickedColor` is
`undefined` then commit-validates (`toPlay=true`) against any non-wild top
card, because `undefined` differs from BLACK. -/
theorem c10_getCard_overwrites_picked_color (d : Deck) (colorArg : Option Color)
    (valueArg : Option Value) (c : Card) (d' : Deck)
    (h : d.getCard colorArg valueArg = (some c, d'))
    (hw : c.wild = true) :
    c.wildPickedColor = colorArg ∧ c ∈ d'.cards ∧
    (∀ t : Card, colorArg = none → t.wild = false →
      c.isValidOn (some t) true false = true) := by
  have hmain : c.wildPickedColor = colorArg ∧ c ∈ d'.cards := by
    rcases colorArg with _ | col <;> rcases valueArg with _ | v <;>
      simp only [Deck.getCard] at h
    · cases h
    all_goals {
      rcases hf : d.cards.findIdx? (getCardMatches _ _ _) with _ | i <;>
        rw [hf] at h <;> dsimp only at h
      · cases h
      · rcases hg : d.cards.get? i with _ | f <;> rw [hg] at h <;> dsimp only at h
        · cases h
        · have hlt : i < d.cards.length := by
            rcases List.get?_eq_some.mp hg with ⟨hb, _⟩
            exact hb
          by_cases hfw : f.wild
          · rw [if_pos hfw] at h
            injection h with h1 h2
            injection h1 with h1
            constructor
            · rw [← h1]
            · rw [← h2]
              refine List.get?_mem (n := i) ?_
              rw [← h1]
              exact List.get?_set_eq_of_lt _ hlt
          · rw [if_neg hfw] at h
            injection h with h1 h2
            injection h1 with h1
            rw [← h1] at hw
            exact absurd hw (by simpa using hfw)
    }
  refine ⟨hmain.1, hmain.2, fun t hnone ht => ?_⟩
  have hp : c.wildPickedColor = none := hmain.1.trans hnone
  simp [Card.isValidOn, hw, ht, hp]

/-- C10 witnessed at the engine's own lookup shape
`getCard(undefined, WILD_DRAW_FOUR)` on a concrete deck. -/
theorem c10_witness :
    c10card.wildPickedColor = none ∧ c10card ∈ (⟨[c10card]⟩ : Deck).cards ∧
    c10card.isValidOn (some redFive) true false = true := by
  have h := c10_getCard_overwrites_picked_color c10deck none (some Value.WILD_DRAW_FOUR)
    c10card ⟨[c10card]⟩ (by decide) (by decide)
  exact ⟨h.1, h.2.1, h.2.2 redFive rfl (by decide)⟩

/-! ## A concrete running 2-player game with stacking enabled -/

/-! ## C2 — the stacking end-to-end scenario -/

/-- C2 counterexample: in the described scenario the first half matches the
claim (after A's DRAW_TWO the state is STACK_DRAW with pending amount 2),
but after B's counter-stack the state is already PLAYING with pending
amount 0 — not STACK_DRAW with 4 — because the engine forced the 4-card
draw onto A during B's play: A's hand already grew from 1 to 5 cards and
the turn already sits at B, so A never faces a draw-only choice. -/
theorem c2_counterexample :
    c2g1.state = "STACK_DRAW" ∧ c2g1.stackDrawAmount = 2 ∧
    playR c2g1 c2pB cardBD2 [] = Except.ok (true, c2g2, []) ∧
    c2g2.state = "PLAYING" ∧ ¬c2g2.state = "STACK_DRAW" ∧
    ¬c2g2.stackDrawAmount = 4 ∧ c2g2.stackDrawAmount = 0 ∧
    ((lookupPid c2g2 0).map fun p => p.hand.cards.length) = some 5 := by decide

/-- C2 amended: 2 players, `stackCards=true`; A plays DRAW_TWO while B
holds one: state becomes STACK_DRAW with pending amount 2 and the turn
moves to B; when B plays their DRAW_TWO (A holding none), the accumulated
amount 4 is immediately forced onto A inside B's play — A automatically
draws exactly 4 cards (1 card + 4 = 5), the state returns to PLAYING, the
pending amount clears, and the turn ends at B, with no voluntary draw by A
in between. -/
theorem c2_amended :
    playR c2g0 c2pA cardAD2 [] = Except.ok (true, c2g1, []) ∧
    c2g1.state = "STACK_DRAW" ∧ c2g1.stackDrawAmount = 2 ∧
    c2g1.currentPlayer.map Player.pid = some 1 ∧
    ((lookupPid c2g1 0).map fun p => p.hand.cards.length) = some 1 ∧
    playR c2g1 c2pB cardBD2 [] = Except.ok (true, c2g2, []) ∧
    c2g2.state = "PLAYING" ∧ c2g2.stackDrawAmount = 0 ∧
    ((lookupPid c2g2 0).map fun p => p.hand.cards.length) = some 5 ∧
    c2g2.currentPlayer.map Player.pid = some 1 := by decide

/-! ## C3 — draw with a non-positive count -/

/-- C3 counterexample: drawing a non-positive count throws the
positive-integer validation error instead of returning false. -/
theorem c3_counterexample :
    drawR c2g0 c2pA 0 true false false false [] =
      Except.error "Cards must be a positive integer" := by decide

/-- C3 amended: for every player and every count below 1, `draw` fails by
throwing "Cards must be a positive integer" — a thrown validation error,
not a boolean false return. -/
theorem c3_amended (g : Game) (p : Player) (n : Int) (hn : n < 1)
    (isNext silent nextSilent force : Bool) (rng : RNG) :
    drawR g p n isNext silent nextSilent force rng =
      Except.error "Cards must be a positive integer" := by
  simp [drawR, hn]

/-- C3 amended, witnessed at count 0 on the concrete running game. -/
theorem c3_amended_witness :
    drawR c2g0 c2pA 0 true false false false [] =
      Except.error "Cards must be a positive integer" :=
  c3_amended c2g0 c2pA 0 (by decide) true false false false []

/-! ## C5 — getNextPlayer on bad arguments -/

/-- C5 counterexample: for a `Player` instance that is not a known player
of the game, `getNextPlayer` does not fail — `indexOf` yields -1 and the CW
branch returns `players[0]`. -/
theorem c5_counterexample :
    strangerPlayer.pid ∉ c2g0.players.map Player.pid ∧
    getNextPlayerR c2g0 "CW" (some strangerPlayer) [] =
      Except.ok (some c2pA, []) := by decide

/-- C5 amended: `getNextPlayer` throws on an invalid rotation token, and
throws on a current-player argument that is neither null nor a `Player`
instance; but a `Player` instance that is not a member of the players list
does not fail: `indexOf` yields -1, so CW rotation returns `players[0]`. -/
theorem c5_amended :
    (∀ (g : Game) (rot : String) (cp : Option Player) (rng : RNG),
      ¬(rot = "CW" ∨ rot = "CCW") →
      getNextPlayerR g rot cp rng =
        Except.error "Invalid rotation. It must be 'CW' or 'CCW'.") ∧
    (∀ (g : Game) (p : Player) (rng : RNG),
      p.pid ∉ g.players.map Player.pid →
      getNextPlayerR g "CW" (some p) rng = Except.ok (g.players.get? 0, rng)) := by
  constructor
  · intro g rot cp rng hrot
    rw [not_or] at hrot
    simp [getNextPlayerR, hrot.1, hrot.2]
  · intro g p rng hnm
    have hfind : g.players.findIdx? (fun q => decide (q.pid = p.pid)) = none := by
      rw [List.findIdx?_eq_none_iff]
      intro x hx
      simp only [decide_eq_false_iff_not]
      intro hpid
      exact hnm (List.mem_map.mpr ⟨x, hx, hpid⟩)
    rw [getNextPlayerR]
    simp only [hfind]
    have h0 : ∀ n : Int, Int.tmod 0 n = 0 := fun n => Int.zero_mod n
    rcases hps : g.players with _ | ⟨q, qs⟩ <;> simp [hps, h0] <;> omega

/-- C5 amended, witnessed at a concrete game: an invalid rotation token
errors, and an unknown Player instance yields `players[0]`. -/
theorem c5_amended_witness :
    getNextPlayerR c2g0 "NORTH" none [] =
      Except.error "Invalid rotation. It must be 'CW' or 'CCW'." ∧
    getNextPlayerR c2g0 "CW" (some strangerPlayer) [] =
      Except.ok (c2g0.players.get? 0, []) :=
  ⟨c5_amended.1 c2g0 "NORTH" none [] (by decide),
   c5_amended.2 c2g0 strangerPlayer [] (by decide)⟩

end UNO
